import Mathlib

/-! # External-traffic intent store (package `mysqlstore`)

A shallow embedding of `src/mapper/pkg/mysqlstore/intent_store.go`.

Modelling conventions

* A `time.Time` is an integer number of seconds on a fixed (UTC) time line; a
  calendar date (the result of `Format("2006-01-02")`, a MySQL `DATE`) is the
  integer day number `t / 86400`.  `Format` is injective on dates, so date
  strings used as map keys are represented by their day numbers.
* Go strings are Lean strings; `fmt.Sprintf("%s|%s")` is concatenation.
* A Go `map[K]V` is an association list without an iteration order that the
  program could rely on; a `map[string]struct{}` is a list of its keys.  Writing
  to an entry of a missing (nil) inner map panics in Go: operations that can
  do so return `Option`, with `none` standing for the panic.
* The MySQL table `external_traffic_intents` is a list of rows (the
  auto-increment `id` column is never read by the store and is left out).  Every
  statement sent to the database is appended to a log, so that "no backend
  call" can be stated.  A statement may fail: the parameter
  `fail : Nat → Bool` says whether the statement number `n` (counted over the
  whole life of the connection) returns an error; a failed statement leaves
  the table as it was.  Column comparisons are exact string comparisons.
* Logging (`logrus`, `printLog`) has no effect on the state and is left out.
-/

namespace mysqlstore

/-! ## Time -/

/-- Model of `t.AddDate(0, 0, n)`: the same wall-clock time `n` calendar days later. -/
def addDays (t : Int) (n : Int) : Int := t + n * 86400

/-- Model of `t.Format("2006-01-02")`: the calendar date of `t`, as a day number. -/
def formatDate (t : Int) : Int := t / 86400

/-- A MySQL `DATE` compared with a `DATETIME` parameter counts as midnight of that date. -/
def dateToTime (d : Int) : Int := d * 86400

/-! ## The intents delivered by the feed (package `externaltrafficholder`) -/

/-- Modelled from the spec: the declaration of the type behind `Client.PodOwnerKind` is not
among the sources; it is the workload owner kind of the spec's ClientIdentity, of which the
store reads the field `Kind`. -/
structure OwnerKind where
  Kind : String
deriving DecidableEq, Repr

/-- Modelled from the spec: the declaration of the type of `Intent.Client` is not among the
sources; it is the spec's ClientIdentity (name, namespace, kind that may be absent), with the
field names the store reads; `PodOwnerKind` is a pointer and may be nil. -/
structure ServiceIdentity where
  Name : String
  Namespace : String
  PodOwnerKind : Option OwnerKind
deriving DecidableEq, Repr

/-- Modelled from the spec: the declaration of `externaltrafficholder.ExternalTrafficIntent` is
not among the sources; it is the spec's ExternalTrafficIntent (client, dnsName, set of
IP-literal strings), with the field names the store reads; `IPs` is a `map[IP]struct{}`,
listed in iteration order. -/
structure ExternalTrafficIntent where
  Client : ServiceIdentity
  DNSName : String
  IPs : List String
deriving DecidableEq, Repr

/-- Modelled from the spec: the declaration of
`externaltrafficholder.TimestampedExternalTrafficIntent` is not among the sources; it is an
intent with its observation time (the spec's observedAt). -/
structure TimestampedExternalTrafficIntent where
  Timestamp : Int
  Intent : ExternalTrafficIntent
deriving DecidableEq, Repr

/-! ## The relational backend -/

/-- A row of `external_traffic_intents` (without the `id` column). -/
structure Row where
  clientName : String
  clientNamespace : String
  clientKind : String
  dnsName : String
  lastSeen : Int
deriving DecidableEq, Repr

/-- The SQL statements the store sends. -/
inductive Stmt where
  | selectExists (clientName clientNamespace clientKind dnsName : String)
  | update (lastSeen : Int) (clientName clientNamespace clientKind dnsName : String)
  | insert (clientName clientNamespace clientKind dnsName : String) (lastSeen : Int)
  | deleteBefore (cutoff : Int)
  | selectAll
  | selectBetween (lo hi : Int)
  | createTable
deriving DecidableEq, Repr

/-- The database behind `s.Db`: the table and the statements received so far. -/
structure DB where
  rows : List Row
  log : List Stmt
deriving DecidableEq, Repr

/-- The `WHERE client_name = ? AND client_namespace = ? AND client_kind = ? AND dns_name = ?` test. -/
def Row.hasKey (r : Row) (clientName clientNamespace clientKind dnsName : String) : Bool :=
  decide (r.clientName = clientName ∧ r.clientNamespace = clientNamespace ∧
    r.clientKind = clientKind ∧ r.dnsName = dnsName)

/-- The constraint `UNIQUE KEY uniq_intent (client_name, client_namespace, client_kind, dns_name)`. -/
def DB.Unique (db : DB) : Prop :=
  db.rows.Pairwise (fun r r' => r'.hasKey r.clientName r.clientNamespace r.clientKind r.dnsName = false)

/-- Number of rows with the given four identity columns. -/
def DB.countKey (db : DB) (clientName clientNamespace clientKind dnsName : String) : Nat :=
  db.rows.countP (fun r => r.hasKey clientName clientNamespace clientKind dnsName)

/-- Runs `SELECT EXISTS(SELECT 1 ... WHERE <four columns match>)`; `none` is an error. -/
def DB.queryExists (fail : Nat → Bool) (db : DB)
    (clientName clientNamespace clientKind dnsName : String) : DB × Option Bool :=
  let db1 : DB := { db with log := db.log ++ [Stmt.selectExists clientName clientNamespace clientKind dnsName] }
  if fail db.log.length then (db1, none)
  else (db1, some (db.rows.any (fun r => r.hasKey clientName clientNamespace clientKind dnsName)))

/-- Runs `UPDATE ... SET last_seen = ? WHERE <four columns match>`; the flag is the error. -/
def DB.execUpdate (fail : Nat → Bool) (db : DB) (lastSeen : Int)
    (clientName clientNamespace clientKind dnsName : String) : DB × Bool :=
  let log1 := db.log ++ [Stmt.update lastSeen clientName clientNamespace clientKind dnsName]
  if fail db.log.length then ({ db with log := log1 }, true)
  else
    ({ rows := db.rows.map (fun r =>
          if r.hasKey clientName clientNamespace clientKind dnsName then { r with lastSeen := lastSeen } else r),
       log := log1 }, false)

/-- Runs `INSERT INTO ... VALUES (?, ?, ?, ?, ?)`; the flag is the error.  A row with the same
four identity columns makes the statement fail on the unique key. -/
def DB.execInsert (fail : Nat → Bool) (db : DB)
    (clientName clientNamespace clientKind dnsName : String) (lastSeen : Int) : DB × Bool :=
  let log1 := db.log ++ [Stmt.insert clientName clientNamespace clientKind dnsName lastSeen]
  if fail db.log.length then ({ db with log := log1 }, true)
  else if db.rows.any (fun r => r.hasKey clientName clientNamespace clientKind dnsName) then
    ({ db with log := log1 }, true)
  else
    ({ rows := db.rows ++ [{ clientName := clientName, clientNamespace := clientNamespace,
                             clientKind := clientKind, dnsName := dnsName, lastSeen := lastSeen }],
       log := log1 }, false)

/-- Runs `DELETE FROM ... WHERE last_seen < ?` with a `time.Time` parameter; the flag is the error. -/
def DB.execDelete (fail : Nat → Bool) (db : DB) (cutoff : Int) : DB × Bool :=
  let log1 := db.log ++ [Stmt.deleteBefore cutoff]
  if fail db.log.length then ({ db with log := log1 }, true)
  else ({ rows := db.rows.filter (fun r => !decide (dateToTime r.lastSeen < cutoff)), log := log1 }, false)

/-- A backend on which every statement succeeds. -/
def allSucceed : Nat → Bool := fun _ => false

/-! ## The rolling cache `localIntentCacheMap : map[string]map[string]struct{}` -/

/-- Date buckets, each a set of cache keys. -/
abbrev Cache := List (Int × List String)

/-- The bucket `m[date]`, if present. -/
def Cache.bucket (c : Cache) (date : Int) : Option (List String) := c.lookup date

/-- The test `_, ok := m[date]`. -/
def Cache.hasBucket (c : Cache) (date : Int) : Bool := (c.lookup date).isSome

/-- The test `_, ok := m[date][key]` (reading a missing bucket gives `false`). -/
def Cache.has (c : Cache) (date : Int) (key : String) : Bool :=
  match c.lookup date with
  | some keys => decide (key ∈ keys)
  | none => false

/-- The statement `delete(m, date)`. -/
def Cache.delete (c : Cache) (date : Int) : Cache := c.filter (fun b => !decide (b.1 = date))

/-- The statement `m[date] = keys`. -/
def Cache.set (c : Cache) (date : Int) (keys : List String) : Cache :=
  (date, keys) :: c.filter (fun b => !decide (b.1 = date))

/-- The statement `m[date][key] = struct{}{}`; panics (`none`) when `m[date]` is nil. -/
def Cache.add (c : Cache) (date : Int) (key : String) : Option Cache :=
  match c.lookup date with
  | none => none
  | some keys => some (c.set date (if key ∈ keys then keys else key :: keys))

/-- The number of date buckets `len(m)`. -/
def Cache.len (c : Cache) : Nat := (c.map Prod.fst).dedup.length

/-- The dates that have a bucket. -/
def Cache.dates (c : Cache) : List Int := (c.map Prod.fst).dedup

/-! ## Standard-library text and address functions used by the store -/

/-- Model of Go `unicode.IsSpace`. -/
def isSpace (c : Char) : Bool :=
  let n := c.toNat
  (9 ≤ n && n ≤ 13) || n == 32 || n == 133 || n == 160 || n == 5760 ||
  (8192 ≤ n && n ≤ 8202) || n == 8232 || n == 8233 || n == 8239 || n == 8287 || n == 12288

/-- Model of Go `strings.TrimSpace`. -/
def TrimSpace (s : String) : String :=
  String.mk ((s.toList.dropWhile isSpace).reverse.dropWhile isSpace).reverse

/-- Splits a character list around every occurrence of `sep`. -/
def splitChars (sep : Char) : List Char → List (List Char)
  | [] => [[]]
  | c :: cs =>
    if c = sep then [] :: splitChars sep cs
    else
      match splitChars sep cs with
      | [] => [[c]]
      | w :: ws => (c :: w) :: ws

/-- Model of Go `strings.Split(s, ",")`. -/
def Split (s : String) : List String := (splitChars ',' s.toList).map String.mk

/-- A `net.IP`: a byte slice of length 4 or 16. -/
abbrev IP := List Nat

/-- A `net.IPNet`: network number and mask. -/
structure IPNet where
  IP : List Nat
  Mask : List Nat
deriving DecidableEq, Repr

/-- The loop of Go `parseIPv4Fields`: decimal octets without leading zeros, separated by dots. -/
def parseIPv4Loop (len : Nat) : List Char → Nat → Bool → Nat → Nat → Nat → List Nat → Option (List Nat)
  | [], _, _, val, pos, _, fields => if pos < 3 then none else some (fields ++ [val])
  | c :: cs, i, prevDot, val, pos, digLen, fields =>
    if 48 ≤ c.toNat ∧ c.toNat ≤ 57 then
      if digLen = 1 ∧ val = 0 then none
      else
        let val1 := val * 10 + (c.toNat - 48)
        if val1 > 255 then none
        else parseIPv4Loop len cs (i + 1) false val1 pos (digLen + 1) fields
    else if c = '.' then
      if i = 0 ∨ i = len - 1 ∨ prevDot then none
      else if pos = 3 then none
      else parseIPv4Loop len cs (i + 1) true 0 (pos + 1) 0 (fields ++ [val])
    else none

/-- Model of Go `parseIPv4Fields` on a whole string: the four octets. -/
def parseIPv4Fields (s : List Char) : Option (List Nat) :=
  parseIPv4Loop s.length s 0 false 0 0 0 []

/-- Value of a hexadecimal digit. -/
def hexVal (c : Char) : Option Nat :=
  let n := c.toNat
  if 48 ≤ n ∧ n ≤ 57 then some (n - 48)
  else if 97 ≤ n ∧ n ≤ 102 then some (n - 97 + 10)
  else if 65 ≤ n ∧ n ≤ 70 then some (n - 65 + 10)
  else none

/-- The hex-group scan of Go `parseIPv6`: the digits read, the value and the rest;
`none` when a group has more than four digits. -/
def scanHex : List Char → Nat → Nat → Option (Nat × Nat × List Char)
  | [], off, acc => some (off, acc, [])
  | c :: cs, off, acc =>
    match hexVal c with
    | none => some (off, acc, c :: cs)
    | some d =>
      let acc1 := acc * 16 + d
      if off > 3 then none
      else if acc1 > 65535 then none
      else scanHex cs (off + 1) acc1

/-- The group loop of Go `parseIPv6`; the result is the bytes written, the position of the
ellipsis and the unread rest of the string. -/
def parseIPv6Loop : Nat → List Char → List Nat → Option Nat → Option (List Nat × Option Nat × List Char)
  | 0, s, ip, ellipsis => some (ip, ellipsis, s)
  | fuel + 1, s, ip, ellipsis =>
    if ip.length < 16 then
      match scanHex s 0 0 with
      | none => none
      | some (off, acc, rest) =>
        if off = 0 then none
        else if rest.head? = some '.' then
          if ellipsis.isNone ∧ ip.length ≠ 12 then none
          else if ip.length + 4 > 16 then none
          else
            match parseIPv4Fields s with
            | none => none
            | some fields => some (ip ++ fields, ellipsis, [])
        else
          let ip1 := ip ++ [acc / 256, acc % 256]
          match rest with
          | [] => some (ip1, ellipsis, [])
          | c :: rest1 =>
            if c ≠ ':' then none
            else
              match rest1 with
              | [] => none
              | c1 :: rest2 =>
                if c1 = ':' then
                  if ellipsis.isSome then none
                  else
                    match rest2 with
                    | [] => some (ip1, some ip1.length, [])
                    | _ :: _ => parseIPv6Loop fuel rest2 ip1 (some ip1.length)
                else parseIPv6Loop fuel (c1 :: rest2) ip1 ellipsis
    else some (ip, ellipsis, s)

/-- Model of Go `parseIPv6` for a string without a zone: the sixteen bytes. -/
def parseIPv6 (s : List Char) : Option (List Nat) :=
  let start : List Char × Option Nat :=
    match s with
    | ':' :: ':' :: rest => (rest, some 0)
    | _ => (s, none)
  if start.2.isSome ∧ start.1 = [] then some (List.replicate 16 0)
  else
    match parseIPv6Loop 8 start.1 [] start.2 with
    | none => none
    | some (ip, ellipsis, rest) =>
      if rest ≠ [] then none
      else if ip.length < 16 then
        match ellipsis with
        | none => none
        | some e => some (ip.take e ++ List.replicate (16 - ip.length) 0 ++ ip.drop e)
      else if ellipsis.isSome then none
      else some ip

/-- The prefix of an IPv4 address in its 16-byte form. -/
def v4InV6Bytes : List Nat := [0, 0, 0, 0, 0, 0, 0, 0, 0, 0, 255, 255]

/-- Model of Go `netip.ParseAddr` for strings without a zone: the first of the characters
`.`, `:` and `%` decides how the string is read.  The result says whether the address is
an IPv4 address and gives its 16-byte form (`As16`). -/
def parseAddr (s : List Char) : Option (Bool × List Nat) :=
  if '%' ∈ s then none
  else
    match s.find? (fun c => c = '.' ∨ c = ':') with
    | some '.' => (parseIPv4Fields s).map (fun f => (true, v4InV6Bytes ++ f))
    | some ':' => (parseIPv6 s).map (fun b => (false, b))
    | _ => none

/-- Model of Go `net.ParseIP`: the 16-byte form of the address, `none` for Go nil. -/
def ParseIP (s : String) : Option IP := (parseAddr s.toList).map Prod.snd

/-- Model of Go `IP.To4`. -/
def To4 (ip : IP) : Option IP :=
  if ip.length = 4 then some ip
  else if ip.length = 16 ∧ ip.take 12 = v4InV6Bytes then some (ip.drop 12)
  else none

/-- Model of Go `net.CIDRMask(ones, bits)` for `ones ≤ bits`. -/
def CIDRMask (ones bits : Nat) : List Nat :=
  (List.range (bits / 8)).map (fun i =>
    if 8 * (i + 1) ≤ ones then 255
    else if ones ≤ 8 * i then 0
    else 256 - 2 ^ (8 - (ones - 8 * i)))

/-- Byte-wise `ip[i] & mask[i]`. -/
def maskBytes (ip mask : List Nat) : List Nat := List.zipWith (fun a b => a &&& b) ip mask

/-- Model of Go `IP.Mask`; `none` for Go nil. -/
def maskIP (ip mask : List Nat) : Option (List Nat) :=
  let mask1 := if mask.length = 16 ∧ ip.length = 4 ∧ mask.take 12 = List.replicate 12 255 then mask.drop 12 else mask
  let ip1 := if mask1.length = 4 ∧ ip.length = 16 ∧ ip.take 12 = v4InV6Bytes then ip.drop 12 else ip
  if ip1.length ≠ mask1.length then none else some (maskBytes ip1 mask1)

/-- Model of Go `dtoi` on a whole string: a non-empty run of decimal digits. -/
def dtoi (s : List Char) : Option Nat :=
  if s = [] then none
  else s.foldl (fun acc c =>
    match acc with
    | none => none
    | some n => if 48 ≤ c.toNat ∧ c.toNat ≤ 57 then (if n * 10 + (c.toNat - 48) ≥ 16777215 then none else some (n * 10 + (c.toNat - 48))) else none)
    (some 0)

/-- Model of Go `net.ParseCIDR`, second result: the network of `address/prefixLength`. -/
def ParseCIDR (s : String) : Option IPNet :=
  let cs := s.toList
  if '/' ∈ cs then
    let addr := cs.takeWhile (fun c => c ≠ '/')
    let mask := (cs.dropWhile (fun c => c ≠ '/')).drop 1
    match parseAddr addr with
    | none => none
    | some (is4, ip16) =>
      let bitLen := if is4 then 32 else 128
      match dtoi mask with
      | none => none
      | some n =>
        if n > bitLen then none
        else
          let m := CIDRMask n bitLen
          match maskIP ip16 m with
          | none => none
          | some nn => some { IP := nn, Mask := m }
  else none

/-- Model of Go `networkNumberAndMask`. -/
def networkNumberAndMask (n : IPNet) : Option (List Nat × List Nat) :=
  let ip? : Option (List Nat) :=
    match To4 n.IP with
    | some ip => some ip
    | none => if n.IP.length ≠ 16 then none else some n.IP
  match ip? with
  | none => none
  | some ip =>
    if n.Mask.length = 4 then (if ip.length ≠ 4 then none else some (ip, n.Mask))
    else if n.Mask.length = 16 then (if ip.length = 4 then some (ip, n.Mask.drop 12) else some (ip, n.Mask))
    else none

/-- Model of Go `(*IPNet).Contains`. -/
def IPNet.Contains (n : IPNet) (ip : List Nat) : Bool :=
  match networkNumberAndMask n with
  | none => false
  | some (nn, m) =>
    let ip1 := match To4 ip with
      | some x => x
      | none => ip
    if ip1.length ≠ nn.length then false
    else decide (maskBytes nn m = maskBytes ip1 m)

/-! ## The privacy classifier -/

/-- The literals of `privateCIDRs`. -/
def privateCIDRs : List String :=
  ["127.0.0.1/8", "10.0.0.0/8", "172.16.0.0/12", "192.168.0.0/16", "100.64.0.0/10"]

/-- The first loop of `hasExternalIP`: the blocks that parse, in order. -/
def privateNets : List IPNet := privateCIDRs.filterMap ParseCIDR

/-- The inner loop of `hasExternalIP`: `isPrivate` after scanning the blocks. -/
def isPrivate : List IPNet → List Nat → Bool
  | [], _ => false
  | privateNet :: rest, ip => if privateNet.Contains ip then true else isPrivate rest ip

/-- The outer loop of `hasExternalIP` over the IP literals in iteration order. -/
def hasExternalIPLoop (nets : List IPNet) : List String → Bool
  | [] => false
  | ipStr :: rest =>
    match ParseIP ipStr with
    | none => hasExternalIPLoop nets rest
    | some ip => if !isPrivate nets ip then true else hasExternalIPLoop nets rest

/-- Embedding of `hasExternalIP`. -/
def hasExternalIP (ips : List String) : Bool := hasExternalIPLoop privateNets ips

/-! ## The store -/

/-- The fields of `Config` that the embedded functions read. -/
structure Config where
  ClientIgnoreListByName : String
  GhaDispatchEnabled : Bool
  RetentionDays : Int
deriving DecidableEq, Repr

/-- Embedding of `MySQLIntentStore`, with the database behind the connection. -/
structure MySQLIntentStore where
  Db : DB
  config : Config
  localIntentCacheMap : Cache
deriving DecidableEq, Repr

/-- Embedding of `ExternalTrafficPayload`. -/
structure ExternalTrafficPayload where
  ClientName : String
  ClientNamespace : String
  ClientKind : String
  DNSName : String
deriving DecidableEq, Repr

/-- The cache key built by `checkIfExists`: `Sprintf("%s|%s|%s", clientName, clientNamespace, dnsName)`. -/
def checkIfExistsCacheKey (clientName clientNamespace _clientKind dnsName : String) : String :=
  clientName ++ "|" ++ clientNamespace ++ "|" ++ dnsName

/-- The cache key built by `storeIntent` (and `LoadCacheFromDb`):
`Sprintf("%s|%s|%s|%s", clientName, clientNamespace, clientKind, dnsName)`. -/
def storeIntentCacheKey (clientName clientNamespace clientKind dnsName : String) : String :=
  clientName ++ "|" ++ clientNamespace ++ "|" ++ clientKind ++ "|" ++ dnsName

/-- Embedding of `checkIfExists`: the store after the call and `found`. -/
def checkIfExists (fail : Nat → Bool) (s : MySQLIntentStore)
    (clientName clientNamespace clientKind dnsName : String) (yesterday : Int) : MySQLIntentStore × Bool :=
  let cacheKey := checkIfExistsCacheKey clientName clientNamespace clientKind dnsName
  if s.localIntentCacheMap.has yesterday cacheKey then (s, true)
  else
    match s.Db.queryExists fail clientName clientNamespace clientKind dnsName with
    | (db, none) => ({ s with Db := db }, false)
    | (db, some found) => ({ s with Db := db }, found)

/-- The `clientKind` computed by `storeIntent`. -/
def clientKindOf (ti : TimestampedExternalTrafficIntent) : String :=
  match ti.Intent.Client.PodOwnerKind with
  | some k => if k.Kind ≠ "" then k.Kind else ""
  | none => ""

/-- The `cacheKey` computed by `storeIntent`. -/
def cacheKeyOf (ti : TimestampedExternalTrafficIntent) : String :=
  storeIntentCacheKey ti.Intent.Client.Name ti.Intent.Client.Namespace (clientKindOf ti) ti.Intent.DNSName

/-- Embedding of `storeIntent`: the store after the call and `found`; `none` is the panic of
writing into a missing `today` bucket. -/
def storeIntent (fail : Nat → Bool) (s : MySQLIntentStore) (ti : TimestampedExternalTrafficIntent)
    (today yesterday : Int) : Option (MySQLIntentStore × Bool) :=
  let intent := ti.Intent
  let intentDate := formatDate ti.Timestamp
  let clientKind := clientKindOf ti
  let cacheKey := cacheKeyOf ti
  if s.localIntentCacheMap.has today cacheKey then some (s, true)
  else
    match checkIfExists fail s intent.Client.Name intent.Client.Namespace clientKind intent.DNSName yesterday with
    | (s1, true) =>
      match s1.Db.execUpdate fail intentDate intent.Client.Name intent.Client.Namespace clientKind intent.DNSName with
      | (db, true) => some ({ s1 with Db := db }, true)
      | (db, false) =>
        match s1.localIntentCacheMap.add today cacheKey with
        | none => none
        | some c => some ({ s1 with Db := db, localIntentCacheMap := c }, true)
    | (s1, false) =>
      match s1.Db.execInsert fail intent.Client.Name intent.Client.Namespace clientKind intent.DNSName intentDate with
      | (db, true) => some ({ s1 with Db := db }, false)
      | (db, false) =>
        match s1.localIntentCacheMap.add today cacheKey with
        | none => none
        | some c => some ({ s1 with Db := db, localIntentCacheMap := c }, false)

/-- The payload built by `LogExternalTrafficIntentsCallback` for a new intent. -/
def payloadOf (ti : TimestampedExternalTrafficIntent) : ExternalTrafficPayload :=
  { ClientName := ti.Intent.Client.Name
    ClientNamespace := ti.Intent.Client.Namespace
    ClientKind := match ti.Intent.Client.PodOwnerKind with
      | some k => k.Kind
      | none => ""
    DNSName := ti.Intent.DNSName }

/-- The variables carried through the loop of `LogExternalTrafficIntentsCallback`. -/
structure BatchState where
  store : MySQLIntentStore
  hasNewIntent : Bool
  payloads : List ExternalTrafficPayload
deriving DecidableEq, Repr

/-- The `ignoreClientSet` of `LogExternalTrafficIntentsCallback`. -/
def ignoreClientSet (config : Config) : List String :=
  (Split config.ClientIgnoreListByName).map TrimSpace

/-- The body of the loop of `LogExternalTrafficIntentsCallback` for one intent; `ignore` is
the `ignoreClientSet` built before the loop. -/
def processIntent (fail : Nat → Bool) (ignore : List String) (today yesterday : Int) (st : BatchState)
    (ti : TimestampedExternalTrafficIntent) : Option BatchState :=
  if hasExternalIP ti.Intent.IPs then
    if ti.Intent.Client.Name ∈ ignore then some st
    else
      match storeIntent fail st.store ti today yesterday with
      | none => none
      | some (s1, found) =>
        if !found then
          some { store := s1, hasNewIntent := true, payloads := st.payloads ++ [payloadOf ti] }
        else some { st with store := s1 }
  else some st

/-- The loop of `LogExternalTrafficIntentsCallback` over the batch, in input order. -/
def processIntents (fail : Nat → Bool) (ignore : List String) (today yesterday : Int) :
    BatchState → List TimestampedExternalTrafficIntent → Option BatchState
  | st, [] => some st
  | st, ti :: rest =>
    match processIntent fail ignore today yesterday st ti with
    | none => none
    | some st1 => processIntents fail ignore today yesterday st1 rest

/-- The cache after the first statements of `LogExternalTrafficIntentsCallback`: the bucket of
the day before yesterday is deleted and a `today` bucket exists. -/
def rollCache (c : Cache) (now : Int) : Cache :=
  let today := formatDate now
  let dayBeforeYesterday := formatDate (addDays now (-2))
  let c1 := c.delete dayBeforeYesterday
  if c1.hasBucket today then c1 else c1.set today []

/-- Embedding of `LogExternalTrafficIntentsCallback` (the spec's `processBatch`) called at time
`now` (the three `time.Now()` readings at its start are taken as one instant): the store
afterwards and the calls made to `dispatchGithubAction`, each with its payload list; `none`
is a panic. -/
def LogExternalTrafficIntentsCallback (fail : Nat → Bool) (s : MySQLIntentStore) (now : Int)
    (intents : List TimestampedExternalTrafficIntent) :
    Option (MySQLIntentStore × List (List ExternalTrafficPayload)) :=
  let today := formatDate now
  let yesterday := formatDate (addDays now (-1))
  let s0 : MySQLIntentStore := { s with localIntentCacheMap := rollCache s.localIntentCacheMap now }
  match processIntents fail (ignoreClientSet s.config) today yesterday
      { store := s0, hasNewIntent := false, payloads := [] } intents with
  | none => none
  | some st =>
    some (st.store, if st.hasNewIntent && s.config.GhaDispatchEnabled then [st.payloads] else [])

/-- Embedding of `CleanupExpiredIntents` called at time `now`: the store afterwards and whether
an error is returned. -/
def CleanupExpiredIntents (fail : Nat → Bool) (s : MySQLIntentStore) (now : Int) : MySQLIntentStore × Bool :=
  if s.config.RetentionDays ≤ 0 then (s, false)
  else
    let cutoffDate := addDays now (-s.config.RetentionDays)
    match s.Db.execDelete fail cutoffDate with
    | (db, err) => ({ s with Db := db }, err)

/-- A sequence of `LogExternalTrafficIntentsCallback` calls, each with its time and batch. -/
def runCallbacks (fail : Nat → Bool) :
    MySQLIntentStore → List (Int × List TimestampedExternalTrafficIntent) → Option MySQLIntentStore
  | s, [] => some s
  | s, (now, intents) :: rest =>
    match LogExternalTrafficIntentsCallback fail s now intents with
    | none => none
    | some (s1, _) => runCallbacks fail s1 rest

/-! ## Construction, cache loading and listing -/

/-- Runs the `CREATE TABLE IF NOT EXISTS` statement of `ensureTableExists`; the flag is the
error.  The table of the model exists from the start, so a successful statement changes
nothing. -/
def DB.execCreateTable (fail : Nat → Bool) (db : DB) : DB × Bool :=
  ({ db with log := db.log ++ [Stmt.createTable] }, fail db.log.length)

/-- Runs `SELECT ... WHERE last_seen >= ? AND last_seen <= ?` with two dates; `none` is an
error. -/
def DB.querySelectBetween (fail : Nat → Bool) (db : DB) (lo hi : Int) : DB × Option (List Row) :=
  let db1 : DB := { db with log := db.log ++ [Stmt.selectBetween lo hi] }
  if fail db.log.length then (db1, none)
  else (db1, some (db.rows.filter (fun r => decide (lo ≤ r.lastSeen) && decide (r.lastSeen ≤ hi))))

/-- The order of `ORDER BY last_seen DESC`: the first row is seen no earlier than the second. -/
def seenNotBefore (a b : Row) : Prop := b.lastSeen ≤ a.lastSeen

/-- Deciding `seenNotBefore`. -/
instance seenNotBeforeDecidable : DecidableRel seenNotBefore :=
  fun a b => inferInstanceAs (Decidable (b.lastSeen ≤ a.lastSeen))

/-- Runs `SELECT ... ORDER BY last_seen DESC`; `none` is an error.  Among rows of the same
date the table order is kept. -/
def DB.querySelectAll (fail : Nat → Bool) (db : DB) : DB × Option (List Row) :=
  let db1 : DB := { db with log := db.log ++ [Stmt.selectAll] }
  if fail db.log.length then (db1, none)
  else (db1, some (db.rows.insertionSort seenNotBefore))

/-- The body of the loop of `LoadCacheFromDb` for one row: the bucket of the row's date is
created when missing and the row's key is put into it. -/
def loadRow (c : Cache) (r : Row) : Cache :=
  let date := r.lastSeen
  let c1 := if c.hasBucket date then c else c.set date []
  let cacheKey := storeIntentCacheKey r.clientName r.clientNamespace r.clientKind r.dnsName
  match c1.add date cacheKey with
  | some c2 => c2
  | none => c1

/-- Embedding of `LoadCacheFromDb` called at time `now` (its two `time.Now()` readings are
taken as one instant): the store afterwards and whether an error is returned. -/
def LoadCacheFromDb (fail : Nat → Bool) (s : MySQLIntentStore) (now : Int) : MySQLIntentStore × Bool :=
  let today := formatDate now
  let yesterday := formatDate (addDays now (-1))
  match s.Db.querySelectBetween fail today yesterday with
  | (db, none) => ({ s with Db := db }, true)
  | (db, some rows) =>
    ({ s with Db := db, localIntentCacheMap := rows.foldl loadRow s.localIntentCacheMap }, false)

/-- Embedding of `NewMySQLIntentStore` over the database `db`, called at time `now`:
`reachable` says whether `sql.Open` and `Ping` succeed; `none` is a returned error.  An error
of `LoadCacheFromDb` is only logged. -/
def NewMySQLIntentStore (reachable : Bool) (fail : Nat → Bool) (config : Config) (db : DB)
    (now : Int) : Option MySQLIntentStore :=
  if !reachable then none
  else
    let store : MySQLIntentStore := { Db := db, config := config, localIntentCacheMap := [] }
    match store.Db.execCreateTable fail with
    | (_, true) => none
    | (db1, false) => some (LoadCacheFromDb fail { store with Db := db1 } now).1

/-- Embedding of `ExternalIntentRecord`; `LastSeen` is the `time.Time` scanned from the
`DATE` column. -/
structure ExternalIntentRecord where
  ClientName : String
  ClientNamespace : String
  ClientKind : String
  DNSName : String
  LastSeen : Int
deriving DecidableEq, Repr

/-- The record scanned from a row by `GetExternalIntents`. -/
def recordOf (r : Row) : ExternalIntentRecord :=
  { ClientName := r.clientName
    ClientNamespace := r.clientNamespace
    ClientKind := r.clientKind
    DNSName := r.dnsName
    LastSeen := dateToTime r.lastSeen }

/-- Embedding of `GetExternalIntents` (the spec's `listAll`) called at time `now`: the store
afterwards and the records; `none` is a returned error.  An error of the cleanup is only
logged. -/
def GetExternalIntents (fail : Nat → Bool) (s : MySQLIntentStore) (now : Int) :
    MySQLIntentStore × Option (List ExternalIntentRecord) :=
  let s1 := (CleanupExpiredIntents fail s now).1
  match s1.Db.querySelectAll fail with
  | (db, none) => ({ s1 with Db := db }, none)
  | (db, some rows) => ({ s1 with Db := db }, some (rows.map recordOf))

/-- A backend on which every statement fails. -/
def allFail : Nat → Bool := fun _ => true

/-! ## Specification-side notions -/

/-- Every key in the bucket of `date` is the cache key of some row of the table. -/
def cacheBacked (s : MySQLIntentStore) (date : Int) : Bool :=
  ((s.localIntentCacheMap.bucket date).getD []).all (fun key =>
    s.Db.rows.any (fun r =>
      decide (storeIntentCacheKey r.clientName r.clientNamespace r.clientKind r.dnsName = key)))


/-- The intents of a batch that are reported newly discovered, in the spec's words: going
through the batch in input order from store `s`, an intent that has an external IP and whose
client is not ignored is handed to `storeIntent`, and it is newly discovered when that call
answers "not already known". -/
def newlyDiscovered (fail : Nat → Bool) (ignore : List String) (today yesterday : Int) :
    MySQLIntentStore → List TimestampedExternalTrafficIntent → List TimestampedExternalTrafficIntent
  | _, [] => []
  | s, ti :: rest =>
    if hasExternalIP ti.Intent.IPs = true ∧ ti.Intent.Client.Name ∉ ignore then
      match storeIntent fail s ti today yesterday with
      | none => []
      | some (s1, true) => newlyDiscovered fail ignore today yesterday s1 rest
      | some (s1, false) => ti :: newlyDiscovered fail ignore today yesterday s1 rest
    else newlyDiscovered fail ignore today yesterday s rest

/-- The reserved blocks named by the spec: loopback, the RFC 1918 blocks and the
carrier-grade NAT block, as network number and mask. -/
def reservedBlocks : List IPNet :=
  [ { IP := [127, 0, 0, 0], Mask := [255, 0, 0, 0] },
    { IP := [10, 0, 0, 0], Mask := [255, 0, 0, 0] },
    { IP := [172, 16, 0, 0], Mask := [255, 240, 0, 0] },
    { IP := [192, 168, 0, 0], Mask := [255, 255, 0, 0] },
    { IP := [100, 64, 0, 0], Mask := [255, 192, 0, 0] } ]

/-! ## Concrete inputs used in the examples -/

/-- A configuration: two ignored clients, dispatch enabled, ninety days of retention. -/
def sampleConfig : Config :=
  { ClientIgnoreListByName := "coredns, kube-dns", GhaDispatchEnabled := true, RetentionDays := 90 }

/-- A freshly constructed store over an empty table. -/
def emptyStore : MySQLIntentStore :=
  { Db := { rows := [], log := [] }, config := sampleConfig, localIntentCacheMap := [] }

/-- An intent of client `pay-svc` towards `api.stripe.com`, observed on day 100. -/
def payIntent (ips : List String) : TimestampedExternalTrafficIntent :=
  { Timestamp := 100 * 86400 + 3600
    Intent := { Client := { Name := "pay-svc", Namespace := "default", PodOwnerKind := some { Kind := "Deployment" } }
                DNSName := "api.stripe.com"
                IPs := ips } }

/-- An intent of client `web` towards `example.org`, observed at noon of the given day. -/
def intentOn (day : Int) : TimestampedExternalTrafficIntent :=
  { Timestamp := day * 86400 + 43200
    Intent := { Client := { Name := "web", Namespace := "prod", PodOwnerKind := some { Kind := "Deployment" } }
                DNSName := "example.org"
                IPs := ["93.184.216.34"] } }

/-- An intent of another workload kind of client `web` whose DNS name contains the separator,
observed at noon of the given day: the key `checkIfExists` builds for it is the text of the
key of `intentOn`. -/
def barIntentOn (day : Int) : TimestampedExternalTrafficIntent :=
  { Timestamp := day * 86400 + 43200
    Intent := { Client := { Name := "web", Namespace := "prod", PodOwnerKind := some { Kind := "Job" } }
                DNSName := "Deployment|example.org"
                IPs := ["93.184.216.34"] } }

/-- An intent with the given identity and an external IP, observed at noon of day 100. -/
def intentOf (name ns kind dns : String) : TimestampedExternalTrafficIntent :=
  { Timestamp := 100 * 86400 + 43200
    Intent := { Client := { Name := name, Namespace := ns, PodOwnerKind := some { Kind := kind } }
                DNSName := dns
                IPs := ["93.184.216.34"] } }

/-- An intent of the ignored client `kube-dns` with an external IP. -/
def ignoredIntent : TimestampedExternalTrafficIntent :=
  { Timestamp := 100 * 86400 + 3600
    Intent := { Client := { Name := "kube-dns", Namespace := "kube-system", PodOwnerKind := none }
                DNSName := "example.com"
                IPs := ["8.8.8.8"] } }

/-- A store whose `today` bucket (day 100) holds the key of `payIntent` while the table has no
row for it. -/
def staleStore : MySQLIntentStore :=
  { Db := { rows := [], log := [] }
    config := sampleConfig
    localIntentCacheMap := [(100, ["pay-svc|default|Deployment|api.stripe.com"])] }

/-- The store on day 100 after `payIntent` was stored on day 99: its row is in the table and
its key is in the bucket of day 99. -/
def dayAfterStore : MySQLIntentStore :=
  { Db := { rows := [Row.mk "pay-svc" "default" "Deployment" "api.stripe.com" 99], log := [] }
    config := sampleConfig
    localIntentCacheMap := [(100, []), (99, ["pay-svc|default|Deployment|api.stripe.com"])] }

/-- An intent of another workload kind whose DNS name contains the separator, observed on
day 100: the key `checkIfExists` builds for it is the text of the key of `payIntent`. -/
def barIntent : TimestampedExternalTrafficIntent :=
  { Timestamp := 100 * 86400 + 3600
    Intent := { Client := { Name := "pay-svc", Namespace := "default", PodOwnerKind := some { Kind := "Job" } }
                DNSName := "Deployment|api.stripe.com"
                IPs := ["54.1.2.3"] } }

/-- A store with one row last seen on day 97 and an empty `today` bucket for day 100. -/
def oldRowStore : MySQLIntentStore :=
  { Db := { rows := [Row.mk "pay-svc" "default" "Deployment" "api.stripe.com" 97], log := [] }
    config := sampleConfig
    localIntentCacheMap := [(100, [])] }

/-! ## Lemmas on the cache -/

theorem lookup_filter_ne (c : Cache) (d d1 : Int) :
    (c.filter (fun b => !decide (b.1 = d))).lookup d1 = if d1 = d then none else c.lookup d1 := by
  induction c with
  | nil => simp
  | cons b rest ih =>
    obtain ⟨k, v⟩ := b
    by_cases hk : k = d
    · subst hk
      by_cases h1 : d1 = k
      · subst h1; simp [List.filter_cons, ih]
      · have : (d1 == k) = false := by simpa using h1
        simp [List.filter_cons, ih, List.lookup_cons, this, h1]
    · by_cases h1 : d1 = k
      · subst h1
        simp [List.filter_cons, hk, List.lookup_cons]
      · have : (d1 == k) = false := by simpa using h1
        simp [List.filter_cons, hk, List.lookup_cons, this, ih]

theorem lookup_set (c : Cache) (d d1 : Int) (keys : List String) :
    (c.set d keys).lookup d1 = if d1 = d then some keys else c.lookup d1 := by
  unfold Cache.set
  by_cases h : d1 = d
  · subst h; simp [List.lookup_cons]
  · have : (d1 == d) = false := by simpa using h
    simp [List.lookup_cons, this, lookup_filter_ne, h]

theorem add_isSome (c : Cache) (d : Int) (key : String) (h : c.hasBucket d = true) :
    ∃ c1, c.add d key = some c1 := by
  unfold Cache.hasBucket at h
  unfold Cache.add
  cases hl : c.lookup d with
  | none => simp [hl] at h
  | some keys => exact ⟨_, rfl⟩

theorem has_of_add (c c1 : Cache) (d : Int) (key : String) (h : c.add d key = some c1) :
    c1.has d key = true := by
  unfold Cache.add at h
  cases hl : c.lookup d with
  | none => simp [hl] at h
  | some keys =>
    simp only [hl, Option.some.injEq] at h
    subst h
    unfold Cache.has
    rw [lookup_set]
    by_cases hk : key ∈ keys <;> simp [hk]

theorem hasBucket_of_add (c c1 : Cache) (d d1 : Int) (key : String) (h : c.add d key = some c1) :
    c1.hasBucket d1 = c.hasBucket d1 := by
  unfold Cache.add at h
  cases hl : c.lookup d with
  | none => simp [hl] at h
  | some keys =>
    simp only [hl, Option.some.injEq] at h
    subst h
    unfold Cache.hasBucket
    rw [lookup_set]
    by_cases hd : d1 = d
    · subst hd; simp [hl]
    · simp [hd]

theorem has_of_has (c : Cache) (d : Int) (key : String) (h : c.has d key = true) :
    c.hasBucket d = true := by
  unfold Cache.has at h
  unfold Cache.hasBucket
  cases hl : c.lookup d with
  | none => simp [hl] at h
  | some keys => rfl

/-! ## Lemmas on the table -/

theorem hasKey_touch (r : Row) (d : Int) (n ns k dn : String) :
    ({ r with lastSeen := d } : Row).hasKey n ns k dn = r.hasKey n ns k dn := rfl

theorem countP_update (rows : List Row) (d : Int) (n ns k dn n1 ns1 k1 dn1 : String) :
    (rows.map (fun r => if r.hasKey n ns k dn then { r with lastSeen := d } else r)).countP
        (fun r => r.hasKey n1 ns1 k1 dn1) =
      rows.countP (fun r => r.hasKey n1 ns1 k1 dn1) := by
  induction rows with
  | nil => rfl
  | cons r rest ih =>
    simp only [List.map_cons, List.countP_cons, ih]
    by_cases h : r.hasKey n ns k dn = true
    · simp [h, hasKey_touch]
    · simp [h]

theorem countP_zero_of_any_false (rows : List Row) (n ns k dn : String)
    (h : rows.any (fun r => r.hasKey n ns k dn) = false) :
    rows.countP (fun r => r.hasKey n ns k dn) = 0 := by
  rw [List.countP_eq_zero]
  intro r hr
  have := (List.any_eq_false.mp h) r hr
  simpa using this

theorem hasKey_self (n ns k dn : String) (d : Int) :
    (Row.mk n ns k dn d).hasKey n ns k dn = true := by
  simp [Row.hasKey]

theorem countP_one_of_unique (rows : List Row) (n ns k dn : String)
    (hu : rows.Pairwise (fun r r1 => r1.hasKey r.clientName r.clientNamespace r.clientKind r.dnsName = false))
    (h : rows.any (fun r => r.hasKey n ns k dn) = true) :
    rows.countP (fun r => r.hasKey n ns k dn) = 1 := by
  induction rows with
  | nil => simp at h
  | cons r rest ih =>
    rw [List.pairwise_cons] at hu
    by_cases hr : r.hasKey n ns k dn = true
    · have hz : rest.countP (fun r => r.hasKey n ns k dn) = 0 := by
        rw [List.countP_eq_zero]
        intro r1 hr1
        have h1 := hu.1 r1 hr1
        simp only [Row.hasKey, decide_eq_true_eq] at hr
        obtain ⟨e1, e2, e3, e4⟩ := hr
        rw [e1, e2, e3, e4] at h1
        simp [h1]
      simp [List.countP_cons, hr, hz]
    · have hany : rest.any (fun r => r.hasKey n ns k dn) = true := by
        simp only [List.any_cons, Bool.or_eq_true] at h
        rcases h with h | h
        · exact absurd h hr
        · exact h
      simp [List.countP_cons, hr, ih hu.2 hany]

/-! ## What `storeIntent` does when every statement succeeds -/

theorem storeIntent_hit (fail : Nat → Bool) (s : MySQLIntentStore) (ti : TimestampedExternalTrafficIntent)
    (today yesterday : Int) (h : s.localIntentCacheMap.has today (cacheKeyOf ti) = true) :
    storeIntent fail s ti today yesterday = some (s, true) := by
  simp [storeIntent, h]

theorem storeIntent_yesterday (s : MySQLIntentStore) (ti : TimestampedExternalTrafficIntent)
    (today yesterday : Int) (c1 : Cache)
    (hc1 : s.localIntentCacheMap.add today (cacheKeyOf ti) = some c1)
    (ht : s.localIntentCacheMap.has today (cacheKeyOf ti) = false)
    (hy : s.localIntentCacheMap.has yesterday (checkIfExistsCacheKey ti.Intent.Client.Name
      ti.Intent.Client.Namespace (clientKindOf ti) ti.Intent.DNSName) = true) :
    storeIntent allSucceed s ti today yesterday = some (
      { Db := { rows := s.Db.rows.map (fun r =>
                  if r.hasKey ti.Intent.Client.Name ti.Intent.Client.Namespace (clientKindOf ti) ti.Intent.DNSName
                  then { r with lastSeen := formatDate ti.Timestamp } else r),
                log := s.Db.log ++ [Stmt.update (formatDate ti.Timestamp) ti.Intent.Client.Name
                  ti.Intent.Client.Namespace (clientKindOf ti) ti.Intent.DNSName] },
        config := s.config, localIntentCacheMap := c1 }, true) := by
  simp [storeIntent, ht, checkIfExists, hy, DB.execUpdate, allSucceed, hc1]

theorem storeIntent_found (s : MySQLIntentStore) (ti : TimestampedExternalTrafficIntent)
    (today yesterday : Int) (c1 : Cache)
    (hc1 : s.localIntentCacheMap.add today (cacheKeyOf ti) = some c1)
    (ht : s.localIntentCacheMap.has today (cacheKeyOf ti) = false)
    (hy : s.localIntentCacheMap.has yesterday (checkIfExistsCacheKey ti.Intent.Client.Name
      ti.Intent.Client.Namespace (clientKindOf ti) ti.Intent.DNSName) = false)
    (hr : s.Db.rows.any (fun r => r.hasKey ti.Intent.Client.Name ti.Intent.Client.Namespace
      (clientKindOf ti) ti.Intent.DNSName) = true) :
    storeIntent allSucceed s ti today yesterday = some (
      { Db := { rows := s.Db.rows.map (fun r =>
                  if r.hasKey ti.Intent.Client.Name ti.Intent.Client.Namespace (clientKindOf ti) ti.Intent.DNSName
                  then { r with lastSeen := formatDate ti.Timestamp } else r),
                log := s.Db.log ++ [Stmt.selectExists ti.Intent.Client.Name
                  ti.Intent.Client.Namespace (clientKindOf ti) ti.Intent.DNSName,
                  Stmt.update (formatDate ti.Timestamp) ti.Intent.Client.Name
                  ti.Intent.Client.Namespace (clientKindOf ti) ti.Intent.DNSName] },
        config := s.config, localIntentCacheMap := c1 }, true) := by
  simp only [storeIntent, ht, checkIfExists, hy, DB.queryExists, allSucceed, hr, DB.execUpdate, hc1]
  simp [hc1]

theorem storeIntent_new (s : MySQLIntentStore) (ti : TimestampedExternalTrafficIntent)
    (today yesterday : Int) (c1 : Cache)
    (hc1 : s.localIntentCacheMap.add today (cacheKeyOf ti) = some c1)
    (ht : s.localIntentCacheMap.has today (cacheKeyOf ti) = false)
    (hy : s.localIntentCacheMap.has yesterday (checkIfExistsCacheKey ti.Intent.Client.Name
      ti.Intent.Client.Namespace (clientKindOf ti) ti.Intent.DNSName) = false)
    (hr : s.Db.rows.any (fun r => r.hasKey ti.Intent.Client.Name ti.Intent.Client.Namespace
      (clientKindOf ti) ti.Intent.DNSName) = false) :
    storeIntent allSucceed s ti today yesterday = some (
      { Db := { rows := s.Db.rows ++ [Row.mk ti.Intent.Client.Name ti.Intent.Client.Namespace
                  (clientKindOf ti) ti.Intent.DNSName (formatDate ti.Timestamp)],
                log := s.Db.log ++ [Stmt.selectExists ti.Intent.Client.Name
                  ti.Intent.Client.Namespace (clientKindOf ti) ti.Intent.DNSName,
                  Stmt.insert ti.Intent.Client.Name
                  ti.Intent.Client.Namespace (clientKindOf ti) ti.Intent.DNSName (formatDate ti.Timestamp)] },
        config := s.config, localIntentCacheMap := c1 }, false) := by
  have hr1 : ¬ ∃ x ∈ s.Db.rows, x.hasKey ti.Intent.Client.Name ti.Intent.Client.Namespace
      (clientKindOf ti) ti.Intent.DNSName = true := by
    simpa using hr
  simp only [storeIntent, ht, checkIfExists, hy, DB.queryExists, allSucceed, hr, DB.execInsert, hc1]
  simp [hr1, hc1]

/-! ## The loop of the callback -/

theorem processIntents_append (fail : Nat → Bool) (ignore : List String) (today yesterday : Int)
    (st : BatchState) (xs ys : List TimestampedExternalTrafficIntent) :
    processIntents fail ignore today yesterday st (xs ++ ys) =
      (processIntents fail ignore today yesterday st xs).bind
        (fun st1 => processIntents fail ignore today yesterday st1 ys) := by
  induction xs generalizing st with
  | nil => rfl
  | cons x rest ih =>
    simp only [List.cons_append, processIntents]
    cases processIntent fail ignore today yesterday st x with
    | none => rfl
    | some st1 => exact ih st1

theorem processIntents_skip (fail : Nat → Bool) (ignore : List String) (today yesterday : Int)
    (st : BatchState) (pre post : List TimestampedExternalTrafficIntent)
    (ti : TimestampedExternalTrafficIntent)
    (h : ∀ st1, processIntent fail ignore today yesterday st1 ti = some st1) :
    processIntents fail ignore today yesterday st (pre ++ ti :: post) =
      processIntents fail ignore today yesterday st (pre ++ post) := by
  rw [processIntents_append, processIntents_append]
  cases processIntents fail ignore today yesterday st pre with
  | none => rfl
  | some st1 => simp [processIntents, h]

theorem checkIfExists_frame (fail : Nat → Bool) (s : MySQLIntentStore)
    (n ns k d : String) (yesterday : Int) :
    (checkIfExists fail s n ns k d yesterday).1.localIntentCacheMap = s.localIntentCacheMap ∧
      (checkIfExists fail s n ns k d yesterday).1.config = s.config := by
  unfold checkIfExists DB.queryExists
  by_cases h : s.localIntentCacheMap.has yesterday (checkIfExistsCacheKey n ns k d) = true
  · simp [h]
  · by_cases hf : fail s.Db.log.length = true <;> simp [h, hf]

theorem storeIntent_total (fail : Nat → Bool) (s : MySQLIntentStore)
    (ti : TimestampedExternalTrafficIntent) (today yesterday : Int)
    (hb : s.localIntentCacheMap.hasBucket today = true) :
    ∃ s1 found, storeIntent fail s ti today yesterday = some (s1, found) ∧
      s1.localIntentCacheMap.hasBucket today = true ∧ s1.config = s.config := by
  obtain ⟨c1, hc1⟩ := add_isSome s.localIntentCacheMap today (cacheKeyOf ti) hb
  have hb1 : c1.hasBucket today = true := by rw [hasBucket_of_add _ _ _ _ _ hc1]; exact hb
  unfold storeIntent
  by_cases ht : s.localIntentCacheMap.has today (cacheKeyOf ti) = true
  · exact ⟨s, true, by simp [ht], hb, rfl⟩
  · have hf := checkIfExists_frame fail s ti.Intent.Client.Name ti.Intent.Client.Namespace
      (clientKindOf ti) ti.Intent.DNSName yesterday
    rcases hce : checkIfExists fail s ti.Intent.Client.Name ti.Intent.Client.Namespace
      (clientKindOf ti) ti.Intent.DNSName yesterday with ⟨s1, f⟩
    rw [hce] at hf
    obtain ⟨hf1, hf2⟩ := hf
    simp only at hf1 hf2
    simp only [ht, hce, Bool.false_eq_true, if_false]
    cases f
    · rcases hex : s1.Db.execInsert fail ti.Intent.Client.Name ti.Intent.Client.Namespace
        (clientKindOf ti) ti.Intent.DNSName (formatDate ti.Timestamp) with ⟨db, err⟩
      cases err
      · simp only [hex, hf1, hc1]
        exact ⟨_, _, rfl, hb1, hf2⟩
      · simp only [hex]
        exact ⟨_, _, rfl, by rw [hf1]; exact hb, hf2⟩
    · rcases hex : s1.Db.execUpdate fail (formatDate ti.Timestamp) ti.Intent.Client.Name
        ti.Intent.Client.Namespace (clientKindOf ti) ti.Intent.DNSName with ⟨db, err⟩
      cases err
      · simp only [hex, hf1, hc1]
        exact ⟨_, _, rfl, hb1, hf2⟩
      · simp only [hex]
        exact ⟨_, _, rfl, by rw [hf1]; exact hb, hf2⟩

theorem processIntent_total (fail : Nat → Bool) (ignore : List String) (today yesterday : Int)
    (st : BatchState) (ti : TimestampedExternalTrafficIntent)
    (hb : st.store.localIntentCacheMap.hasBucket today = true) :
    ∃ st1, processIntent fail ignore today yesterday st ti = some st1 ∧
      st1.store.localIntentCacheMap.hasBucket today = true ∧ st1.store.config = st.store.config := by
  unfold processIntent
  by_cases h1 : hasExternalIP ti.Intent.IPs = true
  · by_cases h2 : ti.Intent.Client.Name ∈ ignore
    · exact ⟨st, by simp [h1, h2], hb, rfl⟩
    · obtain ⟨s1, found, hs, hb1, hcfg⟩ := storeIntent_total fail st.store ti today yesterday hb
      cases found
      · exact ⟨{ store := s1, hasNewIntent := true, payloads := st.payloads ++ [payloadOf ti] },
          by simp [h1, h2, hs], hb1, hcfg⟩
      · exact ⟨{ st with store := s1 }, by simp [h1, h2, hs], hb1, hcfg⟩
  · exact ⟨st, by simp [h1], hb, rfl⟩

theorem processIntents_newly (fail : Nat → Bool) (ignore : List String) (today yesterday : Int)
    (intents : List TimestampedExternalTrafficIntent) (st : BatchState)
    (hb : st.store.localIntentCacheMap.hasBucket today = true) :
    ∃ st1, processIntents fail ignore today yesterday st intents = some st1 ∧
      st1.payloads = st.payloads ++
        (newlyDiscovered fail ignore today yesterday st.store intents).map payloadOf ∧
      st1.hasNewIntent =
        (st.hasNewIntent || !(newlyDiscovered fail ignore today yesterday st.store intents).isEmpty) := by
  induction intents generalizing st with
  | nil => exact ⟨st, rfl, by simp [newlyDiscovered], by simp [newlyDiscovered]⟩
  | cons ti rest ih =>
    by_cases h1 : hasExternalIP ti.Intent.IPs = true
    · by_cases h2 : ti.Intent.Client.Name ∈ ignore
      · obtain ⟨st1, e1, e2, e3⟩ := ih st hb
        exact ⟨st1, by simp [processIntents, processIntent, h1, h2, e1],
          by simp [newlyDiscovered, h2, e2], by simp [newlyDiscovered, h2, e3]⟩
      · obtain ⟨s1, found, hs, hb1, _⟩ := storeIntent_total fail st.store ti today yesterday hb
        cases found
        · obtain ⟨st1, e1, e2, e3⟩ := ih
            { store := s1, hasNewIntent := true, payloads := st.payloads ++ [payloadOf ti] } hb1
          exact ⟨st1, by simp [processIntents, processIntent, h1, h2, hs, e1],
            by simp [newlyDiscovered, h1, h2, hs, e2], by simp [newlyDiscovered, h1, h2, hs, e3]⟩
        · obtain ⟨st1, e1, e2, e3⟩ := ih { st with store := s1 } hb1
          exact ⟨st1, by simp [processIntents, processIntent, h1, h2, hs, e1],
            by simp [newlyDiscovered, h1, h2, hs, e2], by simp [newlyDiscovered, h1, h2, hs, e3]⟩
    · obtain ⟨st1, e1, e2, e3⟩ := ih st hb
      exact ⟨st1, by simp [processIntents, processIntent, h1, e1],
        by simp [newlyDiscovered, h1, e2], by simp [newlyDiscovered, h1, e3]⟩

theorem newlyDiscovered_sublist (fail : Nat → Bool) (ignore : List String) (today yesterday : Int)
    (intents : List TimestampedExternalTrafficIntent) (s : MySQLIntentStore) :
    (newlyDiscovered fail ignore today yesterday s intents).Sublist intents := by
  induction intents generalizing s with
  | nil => simp [newlyDiscovered]
  | cons ti rest ih =>
    unfold newlyDiscovered
    split_ifs with h
    · rcases hs : storeIntent fail s ti today yesterday with _ | ⟨s1, f⟩
      · simp
      · cases f
        · simp only
          exact (ih s1).cons₂ ti
        · simp only
          exact (ih s1).cons ti
    · exact (ih s).cons ti

theorem newlyDiscovered_filtered (fail : Nat → Bool) (ignore : List String) (today yesterday : Int)
    (intents : List TimestampedExternalTrafficIntent) (s : MySQLIntentStore) :
    ∀ ti ∈ newlyDiscovered fail ignore today yesterday s intents,
      hasExternalIP ti.Intent.IPs = true ∧ ti.Intent.Client.Name ∉ ignore := by
  induction intents generalizing s with
  | nil => simp [newlyDiscovered]
  | cons ti rest ih =>
    unfold newlyDiscovered
    split_ifs with h
    · rcases hs : storeIntent fail s ti today yesterday with _ | ⟨s1, f⟩
      · simp
      · cases f
        · simp only [List.mem_cons]
          rintro x (rfl | hx)
          · exact h
          · exact ih s1 x hx
        · simp only
          exact ih s1
    · exact ih s

theorem rollCache_hasBucket (c : Cache) (now : Int) :
    (rollCache c now).hasBucket (formatDate now) = true := by
  unfold rollCache
  simp only
  split_ifs with h
  · exact h
  · simp [Cache.hasBucket, lookup_set]

/-! ## Lemmas on the reserved blocks -/

set_option maxRecDepth 100000 in
theorem and_240 : ∀ b < 256, (16 &&& 240 = b &&& 240 ↔ 16 ≤ b ∧ b ≤ 31) := by
  decide

set_option maxRecDepth 100000 in
theorem and_192 : ∀ b < 256, (64 &&& 192 = b &&& 192 ↔ 64 ≤ b ∧ b ≤ 127) := by
  decide

set_option maxRecDepth 100000 in
theorem and_255 : ∀ b < 256, b &&& 255 = b := by
  decide

theorem reserved_v4 (a b c d : Nat) (ha : a < 256) (hb : b < 256) :
    (∃ n ∈ reservedBlocks, n.Contains (v4InV6Bytes ++ [a, b, c, d]) = true) ↔
      a = 127 ∨ a = 10 ∨ (a = 172 ∧ 16 ≤ b ∧ b ≤ 31) ∨ (a = 192 ∧ b = 168) ∨
        (a = 100 ∧ 64 ≤ b ∧ b ≤ 127) := by
  have h1 := and_240 b hb
  have h2 := and_192 b hb
  have h3 := and_255 a ha
  have h4 := and_255 b hb
  simp [reservedBlocks, IPNet.Contains, networkNumberAndMask, To4, maskBytes, v4InV6Bytes, h3, h4, h1, h2]
  constructor
  · rintro (h | h | h | h | h)
    · exact Or.inl h.symm
    · exact Or.inr (Or.inl h.symm)
    · exact Or.inr (Or.inr (Or.inl ⟨h.1.symm, h.2⟩))
    · exact Or.inr (Or.inr (Or.inr (Or.inl ⟨h.1.symm, h.2.symm⟩)))
    · exact Or.inr (Or.inr (Or.inr (Or.inr ⟨h.1.symm, h.2⟩)))
  · rintro (h | h | h | h | h)
    · exact Or.inl h.symm
    · exact Or.inr (Or.inl h.symm)
    · exact Or.inr (Or.inr (Or.inl ⟨h.1.symm, h.2⟩))
    · exact Or.inr (Or.inr (Or.inr (Or.inl ⟨h.1.symm, h.2.symm⟩)))
    · exact Or.inr (Or.inr (Or.inr (Or.inr ⟨h.1.symm, h.2⟩)))

/-! ## C1: storing the same intent twice -/

/-- C1, as stated, fails: in `staleStore` the `today` bucket holds the key of the intent and
the table has no row for it; two calls of `storeIntent` in a row both answer "already known"
and leave no row (not one) for the intent. -/
theorem storeIntent_twice_stale_cache :
    staleStore.localIntentCacheMap.hasBucket 100 = true ∧
    (storeIntent allSucceed staleStore (payIntent ["54.1.2.3"]) 100 99).bind (fun r1 =>
      (storeIntent allSucceed r1.1 (payIntent ["54.1.2.3"]) 100 99).map (fun r2 =>
        (r1.2, r2.2, r2.1.Db.countKey "pay-svc" "default" "Deployment" "api.stripe.com"))) =
      some (true, true, 0) := by
  decide

/-- C1, amended: when every statement succeeds and the cache has a `today` bucket, two calls
of `storeIntent` in a row with the same intent and dates both return, and the second one
answers "already known" and changes nothing, so at most one of them answers "newly
discovered".  When moreover the table satisfies its unique key and either it already holds a
row for the four identity fields of the intent or neither cache lookup of the first call hits
(the `today` bucket lacks the key and the `yesterday` bucket lacks the key `checkIfExists`
looks up), the table then holds exactly one row with the four identity fields of the
intent. -/
theorem storeIntent_idempotent (s : MySQLIntentStore) (ti : TimestampedExternalTrafficIntent)
    (today yesterday : Int)
    (hb : s.localIntentCacheMap.hasBucket today = true) :
    ∃ s1 found1, storeIntent allSucceed s ti today yesterday = some (s1, found1) ∧
      storeIntent allSucceed s1 ti today yesterday = some (s1, true) ∧
      (s.Db.Unique →
        (s.Db.rows.any (fun r => r.hasKey ti.Intent.Client.Name ti.Intent.Client.Namespace
            (clientKindOf ti) ti.Intent.DNSName) = true ∨
          (s.localIntentCacheMap.has today (cacheKeyOf ti) = false ∧
           s.localIntentCacheMap.has yesterday (checkIfExistsCacheKey ti.Intent.Client.Name
             ti.Intent.Client.Namespace (clientKindOf ti) ti.Intent.DNSName) = false)) →
        s1.Db.countKey ti.Intent.Client.Name ti.Intent.Client.Namespace (clientKindOf ti)
          ti.Intent.DNSName = 1) := by
  by_cases ht : s.localIntentCacheMap.has today (cacheKeyOf ti) = true
  · have h1 := storeIntent_hit allSucceed s ti today yesterday ht
    refine ⟨s, true, h1, h1, ?_⟩
    intro hu hc
    have hr : s.Db.rows.any (fun r => r.hasKey ti.Intent.Client.Name ti.Intent.Client.Namespace
        (clientKindOf ti) ti.Intent.DNSName) = true := by
      rcases hc with h | ⟨h, _⟩
      · exact h
      · rw [h] at ht; exact absurd ht (by simp)
    exact countP_one_of_unique _ _ _ _ _ hu hr
  · have ht0 : s.localIntentCacheMap.has today (cacheKeyOf ti) = false := by simpa using ht
    obtain ⟨c1, hc1⟩ := add_isSome s.localIntentCacheMap today (cacheKeyOf ti) hb
    have hin := has_of_add _ _ _ _ hc1
    by_cases hy : s.localIntentCacheMap.has yesterday (checkIfExistsCacheKey ti.Intent.Client.Name
        ti.Intent.Client.Namespace (clientKindOf ti) ti.Intent.DNSName) = true
    · refine ⟨_, true, storeIntent_yesterday s ti today yesterday c1 hc1 ht0 hy, ?_, ?_⟩
      · exact storeIntent_hit allSucceed _ ti today yesterday hin
      · intro hu hc
        have hr : s.Db.rows.any (fun r => r.hasKey ti.Intent.Client.Name ti.Intent.Client.Namespace
            (clientKindOf ti) ti.Intent.DNSName) = true := by
          rcases hc with h | ⟨_, h⟩
          · exact h
          · rw [h] at hy; exact absurd hy (by simp)
        simp only [DB.countKey]
        rw [countP_update]
        exact countP_one_of_unique _ _ _ _ _ hu hr
    · have hy0 : s.localIntentCacheMap.has yesterday (checkIfExistsCacheKey ti.Intent.Client.Name
          ti.Intent.Client.Namespace (clientKindOf ti) ti.Intent.DNSName) = false := by simpa using hy
      by_cases hr : s.Db.rows.any (fun r => r.hasKey ti.Intent.Client.Name ti.Intent.Client.Namespace
          (clientKindOf ti) ti.Intent.DNSName) = true
      · refine ⟨_, true, storeIntent_found s ti today yesterday c1 hc1 ht0 hy0 hr, ?_, ?_⟩
        · exact storeIntent_hit allSucceed _ ti today yesterday hin
        · intro hu _
          simp only [DB.countKey]
          rw [countP_update]
          exact countP_one_of_unique _ _ _ _ _ hu hr
      · have hr0 : s.Db.rows.any (fun r => r.hasKey ti.Intent.Client.Name ti.Intent.Client.Namespace
            (clientKindOf ti) ti.Intent.DNSName) = false := by simpa using hr
        refine ⟨_, false, storeIntent_new s ti today yesterday c1 hc1 ht0 hy0 hr0, ?_, ?_⟩
        · exact storeIntent_hit allSucceed _ ti today yesterday hin
        · intro _ _
          simp only [DB.countKey]
          rw [List.countP_append, countP_zero_of_any_false _ _ _ _ _ hr0]
          simp [hasKey_self]

/-- C1, amended, at the spec's scenario: `pay-svc` towards `api.stripe.com` stored twice on
day 100, starting from an empty table and an empty `today` bucket: the first call answers
"newly discovered", the second "already known", and one row remains. -/
theorem storeIntent_idempotent_witness :
    ∃ s1, storeIntent allSucceed { emptyStore with localIntentCacheMap := [(100, [])] }
        (payIntent ["54.1.2.3"]) 100 99 = some (s1, false) ∧
      storeIntent allSucceed s1 (payIntent ["54.1.2.3"]) 100 99 = some (s1, true) ∧
      s1.Db.countKey "pay-svc" "default" "Deployment" "api.stripe.com" = 1 := by
  obtain ⟨s1, found1, h1, h2, h3⟩ := storeIntent_idempotent
    { emptyStore with localIntentCacheMap := [(100, [])] } (payIntent ["54.1.2.3"]) 100 99 (by decide)
  have hf : found1 = false := by
    have h0 : (storeIntent allSucceed { emptyStore with localIntentCacheMap := [(100, [])] }
        (payIntent ["54.1.2.3"]) 100 99).map Prod.snd = some false := by decide
    rw [h1] at h0
    simpa using h0
  subst hf
  exact ⟨s1, h1, h2, h3 (by simp [DB.Unique, emptyStore]) (Or.inr (by decide))⟩

/-! ## C2 and C3: intents that are skipped -/

/-- C2: an intent whose IP set has no external IP (`hasExternalIP` is false) is passed over
by the loop of `LogExternalTrafficIntentsCallback`: the loop body returns the state it was
given (same table, same statement log, so no backend read or write; same cache; same payload
list and novelty flag), whatever the backend does and whatever its client and DNS name are;
hence a batch with the intent gives the same store and the same dispatch as the batch
without it. -/
theorem private_only_intent_skipped (fail : Nat → Bool) (s : MySQLIntentStore) (now : Int)
    (pre post : List TimestampedExternalTrafficIntent) (ti : TimestampedExternalTrafficIntent)
    (h : hasExternalIP ti.Intent.IPs = false) :
    (∀ (ignore : List String) (today yesterday : Int) (st : BatchState),
        processIntent fail ignore today yesterday st ti = some st) ∧
    LogExternalTrafficIntentsCallback fail s now (pre ++ ti :: post) =
      LogExternalTrafficIntentsCallback fail s now (pre ++ post) := by
  have hstep : ∀ (ignore : List String) (today yesterday : Int) (st : BatchState),
      processIntent fail ignore today yesterday st ti = some st := by
    intro ignore today yesterday st
    simp [processIntent, h]
  refine ⟨hstep, ?_⟩
  unfold LogExternalTrafficIntentsCallback
  simp only
  rw [processIntents_skip fail _ _ _ _ pre post ti (hstep _ _ _)]

/-- C2 at the spec's scenario: an intent with `ips = {"10.0.0.5"}` only. -/
theorem private_only_intent_skipped_witness :
    hasExternalIP (payIntent ["10.0.0.5"]).Intent.IPs = false ∧
    ((∀ (ignore : List String) (today yesterday : Int) (st : BatchState),
        processIntent allSucceed ignore today yesterday st (payIntent ["10.0.0.5"]) = some st) ∧
     LogExternalTrafficIntentsCallback allSucceed emptyStore (100 * 86400 + 7200)
        ([] ++ payIntent ["10.0.0.5"] :: []) =
      LogExternalTrafficIntentsCallback allSucceed emptyStore (100 * 86400 + 7200) ([] ++ [])) :=
  ⟨by decide, private_only_intent_skipped allSucceed emptyStore (100 * 86400 + 7200) [] []
    (payIntent ["10.0.0.5"]) (by decide)⟩

/-- C3: an intent whose client name equals an entry of the comma-separated ignore list after
the entry is trimmed is passed over by the loop of `LogExternalTrafficIntentsCallback`, also
when it has an external IP: the loop body returns the state it was given (`storeIntent` is
not called: same table, statement log, cache, payload list and novelty flag), so a batch
with the intent gives the same store and the same dispatch as the batch without it. -/
theorem ignored_client_skipped (fail : Nat → Bool) (s : MySQLIntentStore) (now : Int)
    (pre post : List TimestampedExternalTrafficIntent) (ti : TimestampedExternalTrafficIntent)
    (h : ti.Intent.Client.Name ∈ (Split s.config.ClientIgnoreListByName).map TrimSpace) :
    (∀ (today yesterday : Int) (st : BatchState),
        processIntent fail (ignoreClientSet s.config) today yesterday st ti = some st) ∧
    LogExternalTrafficIntentsCallback fail s now (pre ++ ti :: post) =
      LogExternalTrafficIntentsCallback fail s now (pre ++ post) := by
  have hstep : ∀ (today yesterday : Int) (st : BatchState),
      processIntent fail (ignoreClientSet s.config) today yesterday st ti = some st := by
    intro today yesterday st
    have h1 : ti.Intent.Client.Name ∈ ignoreClientSet s.config := h
    unfold processIntent
    by_cases he : hasExternalIP ti.Intent.IPs = true
    · simp [he, h1]
    · simp [he]
  refine ⟨hstep, ?_⟩
  unfold LogExternalTrafficIntentsCallback
  simp only
  rw [processIntents_skip fail _ _ _ _ pre post ti (hstep _ _)]

/-- C3 at a concrete input: client `kube-dns` with the ignore list `"coredns, kube-dns"`,
whose second entry has a leading blank, and the external IP `8.8.8.8`. -/
theorem ignored_client_skipped_witness :
    hasExternalIP ignoredIntent.Intent.IPs = true ∧
    ignoredIntent.Intent.Client.Name ∈ (Split emptyStore.config.ClientIgnoreListByName).map TrimSpace ∧
    ((∀ (today yesterday : Int) (st : BatchState),
        processIntent allSucceed (ignoreClientSet emptyStore.config) today yesterday st ignoredIntent = some st) ∧
     LogExternalTrafficIntentsCallback allSucceed emptyStore (100 * 86400 + 7200)
        ([] ++ ignoredIntent :: []) =
      LogExternalTrafficIntentsCallback allSucceed emptyStore (100 * 86400 + 7200) ([] ++ [])) :=
  ⟨by decide, by decide, ignored_client_skipped allSucceed emptyStore (100 * 86400 + 7200) [] []
    ignoredIntent (by decide)⟩

/-! ## C4: the number of date buckets -/

/-- C4, the code at a failing input: four calls of `LogExternalTrafficIntentsCallback` at noon
of the days 100, 103, 106 and 109, each with a batch of one intent observed that day,
starting from the empty cache, leave four date buckets: each call deletes only the bucket
dated exactly two days before it. -/
theorem cache_exceeds_three_buckets :
    (runCallbacks allSucceed emptyStore
        [(100 * 86400 + 43200, [intentOn 100]), (103 * 86400 + 43200, [intentOn 103]),
         (106 * 86400 + 43200, [intentOn 106]), (109 * 86400 + 43200, [intentOn 109])]).map
      (fun s => (s.localIntentCacheMap.len, s.localIntentCacheMap.dates)) =
      some (4, [109, 106, 103, 100]) := by
  decide

/-! ## C5: retention -/

/-- C5: `CleanupExpiredIntents` at time `now` with retention `N = RetentionDays`.  With
`N ≤ 0` it returns no error and the store is unchanged, statement log included (no delete is
issued), whatever the backend would do.  With `N > 0` and a succeeding backend it returns no
error, the rows that remain are exactly the prior rows whose `lastSeen` is not before `now`
minus `N` days, in their order, and cache and configuration are unchanged. -/
theorem cleanup_retention (fail : Nat → Bool) (s : MySQLIntentStore) (now : Int) :
    (s.config.RetentionDays ≤ 0 → CleanupExpiredIntents fail s now = (s, false)) ∧
    (0 < s.config.RetentionDays →
      (CleanupExpiredIntents allSucceed s now).2 = false ∧
      (CleanupExpiredIntents allSucceed s now).1.Db.rows =
        s.Db.rows.filter (fun r => decide (addDays now (-s.config.RetentionDays) ≤ dateToTime r.lastSeen)) ∧
      (∀ r, r ∈ (CleanupExpiredIntents allSucceed s now).1.Db.rows ↔
        r ∈ s.Db.rows ∧ ¬ dateToTime r.lastSeen < addDays now (-s.config.RetentionDays)) ∧
      (CleanupExpiredIntents allSucceed s now).1.localIntentCacheMap = s.localIntentCacheMap ∧
      (CleanupExpiredIntents allSucceed s now).1.config = s.config) := by
  constructor
  · intro h
    simp [CleanupExpiredIntents, h]
  · intro h
    have hn : ¬ s.config.RetentionDays ≤ 0 := by omega
    have hrows : (CleanupExpiredIntents allSucceed s now).1.Db.rows =
        s.Db.rows.filter (fun r => decide (addDays now (-s.config.RetentionDays) ≤ dateToTime r.lastSeen)) := by
      simp only [CleanupExpiredIntents, hn, if_false, DB.execDelete, allSucceed]
      apply List.filter_congr
      intro r _
      by_cases hlt : dateToTime r.lastSeen < addDays now (-s.config.RetentionDays)
      · simp [hlt, not_le.mpr hlt]
      · simp [hlt, not_lt.mp hlt]
    refine ⟨?_, hrows, ?_, ?_, ?_⟩
    · simp [CleanupExpiredIntents, hn, DB.execDelete, allSucceed]
    · intro r
      rw [hrows, List.mem_filter]
      simp
    · simp [CleanupExpiredIntents, hn, DB.execDelete, allSucceed]
    · simp [CleanupExpiredIntents, hn, DB.execDelete, allSucceed]

/-- C5 at a concrete input: retention 90 days at noon of day 200 keeps a row last seen on
day 111 and deletes the rows last seen on days 110 and 97. -/
theorem cleanup_retention_witness :
    (0 : Int) < ({ oldRowStore with Db := { rows := [Row.mk "a" "b" "c" "d" 111, Row.mk "e" "f" "g" "h" 110,
        Row.mk "pay-svc" "default" "Deployment" "api.stripe.com" 97], log := [] } } : MySQLIntentStore).config.RetentionDays ∧
    (CleanupExpiredIntents allSucceed
      { oldRowStore with Db := { rows := [Row.mk "a" "b" "c" "d" 111, Row.mk "e" "f" "g" "h" 110,
        Row.mk "pay-svc" "default" "Deployment" "api.stripe.com" 97], log := [] } }
      (200 * 86400 + 43200)).1.Db.rows = [Row.mk "a" "b" "c" "d" 111] :=
  ⟨by decide,
   ((cleanup_retention allSucceed
      { oldRowStore with Db := { rows := [Row.mk "a" "b" "c" "d" 111, Row.mk "e" "f" "g" "h" 110,
        Row.mk "pay-svc" "default" "Deployment" "api.stripe.com" 97], log := [] } }
      (200 * 86400 + 43200)).2 (by decide)).2.1.trans (by decide)⟩

/-! ## C6: the two cache keys -/

/-- C6, the code against the claim: the key `checkIfExists` looks up is built from three
fields (client name, namespace, DNS name) and the key `storeIntent` inserts from four; for
the spec's scenario they are the two texts below, and for no identity are they equal. -/
theorem cache_keys_differ :
    checkIfExistsCacheKey "pay-svc" "default" "Deployment" "api.stripe.com" =
      "pay-svc|default|api.stripe.com" ∧
    storeIntentCacheKey "pay-svc" "default" "Deployment" "api.stripe.com" =
      "pay-svc|default|Deployment|api.stripe.com" ∧
    ∀ clientName clientNamespace clientKind dnsName : String,
      checkIfExistsCacheKey clientName clientNamespace clientKind dnsName ≠
        storeIntentCacheKey clientName clientNamespace clientKind dnsName := by
  refine ⟨by decide, by decide, ?_⟩
  intro n ns k d h
  have hl := congrArg String.length h
  have h1 : ("|" : String).length = 1 := rfl
  simp only [checkIfExistsCacheKey, storeIntentCacheKey, String.length_append, h1] at hl
  omega

/-! ## C7: the privacy classifier -/

theorem isPrivate_eq_true (nets : List IPNet) (ip : List Nat) :
    isPrivate nets ip = true ↔ ∃ n ∈ nets, n.Contains ip = true := by
  induction nets with
  | nil => simp [isPrivate]
  | cons n rest ih =>
    unfold isPrivate
    by_cases h : n.Contains ip = true
    · simp [h]
    · simp [h, ih]

theorem hasExternalIPLoop_iff (nets : List IPNet) (ips : List String) :
    hasExternalIPLoop nets ips = true ↔
      ∃ s ∈ ips, ∃ ip, ParseIP s = some ip ∧ ∀ n ∈ nets, n.Contains ip = false := by
  induction ips with
  | nil => simp [hasExternalIPLoop]
  | cons s rest ih =>
    unfold hasExternalIPLoop
    cases hp : ParseIP s with
    | none => simp [ih, hp]
    | some ip =>
      by_cases hpriv : isPrivate nets ip = true
      · have hex := (isPrivate_eq_true nets ip).mp hpriv
        obtain ⟨n, hn, hc⟩ := hex
        simp only [hpriv, Bool.not_true, Bool.false_eq_true, if_false, ih, List.mem_cons,
          exists_eq_or_imp, hp, Option.some.injEq, exists_eq_left']
        constructor
        · intro h; exact Or.inr h
        · rintro (h | h)
          · have := h n hn
            rw [hc] at this
            exact absurd this (by simp)
          · exact h
      · have hall : ∀ n ∈ nets, n.Contains ip = false := by
          intro n hn
          by_contra hc
          exact hpriv ((isPrivate_eq_true nets ip).mpr ⟨n, hn, by simpa using hc⟩)
        simp only [hpriv, Bool.not_false, if_true, List.mem_cons, exists_eq_or_imp, hp,
          Option.some.injEq, exists_eq_left', true_iff]
        exact Or.inl hall

/-- C7: `hasExternalIP` scans the five reserved blocks 127.0.0.0/8, 10.0.0.0/8,
172.16.0.0/12, 192.168.0.0/16 and 100.64.0.0/10 (its literal `127.0.0.1/8` parses to the
first); it is total, and it returns true exactly when some literal of the set parses as an
IP address that lies in none of the blocks.  Hence malformed literals never make it true,
the empty set gives false, and the result is the same for every iteration order.  For an
IPv4 address `a.b.c.d`, lying in one of the blocks means `a = 127`, `a = 10`, `a = 172` with
`16 ≤ b ≤ 31`, `a = 192` with `b = 168`, or `a = 100` with `64 ≤ b ≤ 127`. -/
theorem hasExternalIP_iff :
    privateNets = reservedBlocks ∧
    (∀ ips : List String, hasExternalIP ips = true ↔
      ∃ s ∈ ips, ∃ ip, ParseIP s = some ip ∧ ∀ n ∈ reservedBlocks, n.Contains ip = false) ∧
    (∀ ips : List String, (∀ s ∈ ips, ParseIP s = none) → hasExternalIP ips = false) ∧
    (∀ ips ips1 : List String, ips.Perm ips1 → hasExternalIP ips = hasExternalIP ips1) ∧
    hasExternalIP [] = false ∧
    (∀ a b c d : Nat, a < 256 → b < 256 →
      ((∃ n ∈ reservedBlocks, n.Contains (v4InV6Bytes ++ [a, b, c, d]) = true) ↔
        a = 127 ∨ a = 10 ∨ (a = 172 ∧ 16 ≤ b ∧ b ≤ 31) ∨ (a = 192 ∧ b = 168) ∨
          (a = 100 ∧ 64 ≤ b ∧ b ≤ 127))) := by
  have hnets : privateNets = reservedBlocks := by decide
  have hiff : ∀ ips : List String, hasExternalIP ips = true ↔
      ∃ s ∈ ips, ∃ ip, ParseIP s = some ip ∧ ∀ n ∈ reservedBlocks, n.Contains ip = false := by
    intro ips
    unfold hasExternalIP
    rw [hnets]
    exact hasExternalIPLoop_iff reservedBlocks ips
  refine ⟨hnets, hiff, ?_, ?_, rfl, fun a b c d ha hb => reserved_v4 a b c d ha hb⟩
  · intro ips hall
    by_contra hne
    have ht : hasExternalIP ips = true := by simpa using hne
    obtain ⟨s, hs, ip, hip, _⟩ := (hiff ips).mp ht
    rw [hall s hs] at hip
    exact absurd hip (by simp)
  · intro ips ips1 hperm
    rw [Bool.eq_iff_iff, hiff, hiff]
    constructor
    · rintro ⟨s, hs, rest⟩
      exact ⟨s, hperm.subset hs, rest⟩
    · rintro ⟨s, hs, rest⟩
      exact ⟨s, hperm.symm.subset hs, rest⟩

/-- C7 at concrete inputs: a malformed literal and three private ones give false in either
order. -/
theorem hasExternalIP_iff_witness :
    hasExternalIP ["bogus", "10.0.0.5", "172.31.255.1", "100.127.0.1"] =
      hasExternalIP ["100.127.0.1", "172.31.255.1", "10.0.0.5", "bogus"] ∧
    hasExternalIP ["bogus", "10.0.0.5", "172.31.255.1", "100.127.0.1"] = false ∧
    hasExternalIP ["10.0.0.5", "54.1.2.3"] = true :=
  ⟨hasExternalIP_iff.2.2.2.1 _ _ (by decide), by decide, by decide⟩

/-! ## C8: one dispatch per batch -/

/-- C8: `LogExternalTrafficIntentsCallback` always returns; it calls the dispatcher at most
once, namely exactly when `GhaDispatchEnabled` is set and at least one intent of the batch
was reported newly discovered by `storeIntent`; the payload list passed is the list of
projections (client name, namespace, kind, DNS name) of the newly discovered intents in
input order; these form a sublist of the batch, and each of them has an external IP and a
client that is not ignored. -/
theorem dispatch_once_per_batch (fail : Nat → Bool) (s : MySQLIntentStore) (now : Int)
    (intents : List TimestampedExternalTrafficIntent) :
    ∃ s1 calls, LogExternalTrafficIntentsCallback fail s now intents = some (s1, calls) ∧
      calls.length ≤ 1 ∧
      calls =
        (if s.config.GhaDispatchEnabled = true ∧
            newlyDiscovered fail (ignoreClientSet s.config) (formatDate now) (formatDate (addDays now (-1)))
              { s with localIntentCacheMap := rollCache s.localIntentCacheMap now } intents ≠ []
         then [(newlyDiscovered fail (ignoreClientSet s.config) (formatDate now)
                  (formatDate (addDays now (-1)))
                  { s with localIntentCacheMap := rollCache s.localIntentCacheMap now } intents).map payloadOf]
         else []) ∧
      (newlyDiscovered fail (ignoreClientSet s.config) (formatDate now) (formatDate (addDays now (-1)))
          { s with localIntentCacheMap := rollCache s.localIntentCacheMap now } intents).Sublist intents ∧
      (∀ ti ∈ newlyDiscovered fail (ignoreClientSet s.config) (formatDate now)
          (formatDate (addDays now (-1)))
          { s with localIntentCacheMap := rollCache s.localIntentCacheMap now } intents,
        hasExternalIP ti.Intent.IPs = true ∧
        ti.Intent.Client.Name ∉ (Split s.config.ClientIgnoreListByName).map TrimSpace ∧
        (payloadOf ti).ClientName = ti.Intent.Client.Name ∧
        (payloadOf ti).ClientNamespace = ti.Intent.Client.Namespace ∧
        (payloadOf ti).ClientKind = clientKindOf ti ∧
        (payloadOf ti).DNSName = ti.Intent.DNSName) := by
  obtain ⟨st1, e1, e2, e3⟩ := processIntents_newly fail (ignoreClientSet s.config) (formatDate now)
    (formatDate (addDays now (-1))) intents
    { store := { s with localIntentCacheMap := rollCache s.localIntentCacheMap now },
      hasNewIntent := false, payloads := [] }
    (rollCache_hasBucket s.localIntentCacheMap now)
  have hcall : LogExternalTrafficIntentsCallback fail s now intents =
      some (st1.store, if st1.hasNewIntent && s.config.GhaDispatchEnabled then [st1.payloads] else []) := by
    unfold LogExternalTrafficIntentsCallback
    simp only [e1]
  simp only [List.nil_append, Bool.false_or] at e2 e3
  refine ⟨st1.store, _, hcall, ?_, ?_, ?_, ?_⟩
  · split_ifs <;> simp
  · rw [e2, e3]
    by_cases hg : s.config.GhaDispatchEnabled = true
    · by_cases hn : newlyDiscovered fail (ignoreClientSet s.config) (formatDate now)
          (formatDate (addDays now (-1)))
          { s with localIntentCacheMap := rollCache s.localIntentCacheMap now } intents = []
      · simp [hg, hn]
      · simp [hg, hn]
    · simp [hg]
  · exact newlyDiscovered_sublist _ _ _ _ _ _
  · intro ti hti
    obtain ⟨h1, h2⟩ := newlyDiscovered_filtered _ _ _ _ _ _ ti hti
    refine ⟨h1, h2, rfl, rfl, ?_, rfl⟩
    unfold payloadOf clientKindOf
    cases ti.Intent.Client.PodOwnerKind with
    | none => rfl
    | some k =>
      by_cases hk : k.Kind = ""
      · simp [hk]
      · simp [hk]

/-- C8 at the spec's scenario: a batch with `pay-svc` towards `api.stripe.com` twice, a
private-only intent and an ignored client gives one dispatch with the one payload. -/
theorem dispatch_once_per_batch_witness :
    ∃ s1 calls, LogExternalTrafficIntentsCallback allSucceed emptyStore (100 * 86400 + 7200)
        [payIntent ["54.1.2.3"], payIntent ["10.0.0.5"], ignoredIntent, payIntent ["54.1.2.3"]] =
          some (s1, calls) ∧
      calls = [[ExternalTrafficPayload.mk "pay-svc" "default" "Deployment" "api.stripe.com"]] := by
  obtain ⟨s1, calls, h, _, hc, _⟩ := dispatch_once_per_batch allSucceed emptyStore (100 * 86400 + 7200)
    [payIntent ["54.1.2.3"], payIntent ["10.0.0.5"], ignoredIntent, payIntent ["54.1.2.3"]]
  exact ⟨s1, calls, h, hc.trans (by decide)⟩

/-! ## C9 and C10: what `storeIntent` does on a cache miss -/

/-- C9: when every statement succeeds, the `today` bucket exists and does not hold the key
of the intent, and the table holds a row with the four identity fields of the intent, then
(whatever the `yesterday` bucket holds) `storeIntent` returns "already known"; the table is
the old one with `lastSeen` of the rows with these four fields set to the observation date
of the intent, so no row is added; the key is then in the `today` bucket; and the loop body
of `LogExternalTrafficIntentsCallback` adds no payload for the intent and leaves the novelty
flag as it was. -/
theorem storeIntent_known_row (s : MySQLIntentStore) (ti : TimestampedExternalTrafficIntent)
    (today yesterday : Int)
    (hb : s.localIntentCacheMap.hasBucket today = true)
    (ht : s.localIntentCacheMap.has today (cacheKeyOf ti) = false)
    (hr : s.Db.rows.any (fun r => r.hasKey ti.Intent.Client.Name ti.Intent.Client.Namespace
      (clientKindOf ti) ti.Intent.DNSName) = true) :
    ∃ s1, storeIntent allSucceed s ti today yesterday = some (s1, true) ∧
      s1.Db.rows = s.Db.rows.map (fun r =>
        if r.hasKey ti.Intent.Client.Name ti.Intent.Client.Namespace (clientKindOf ti) ti.Intent.DNSName
        then { r with lastSeen := formatDate ti.Timestamp } else r) ∧
      s1.Db.rows.length = s.Db.rows.length ∧
      (∀ r ∈ s1.Db.rows, r.hasKey ti.Intent.Client.Name ti.Intent.Client.Namespace
        (clientKindOf ti) ti.Intent.DNSName = true → r.lastSeen = formatDate ti.Timestamp) ∧
      s1.localIntentCacheMap.has today (cacheKeyOf ti) = true ∧
      (∀ (ignore : List String) (hasNew : Bool) (payloads : List ExternalTrafficPayload),
        ∃ st1, processIntent allSucceed ignore today yesterday
            { store := s, hasNewIntent := hasNew, payloads := payloads } ti = some st1 ∧
          st1.payloads = payloads ∧ st1.hasNewIntent = hasNew) := by
  obtain ⟨c1, hc1⟩ := add_isSome s.localIntentCacheMap today (cacheKeyOf ti) hb
  have hin := has_of_add _ _ _ _ hc1
  have hstore : ∃ s1, storeIntent allSucceed s ti today yesterday = some (s1, true) ∧
      s1.Db.rows = s.Db.rows.map (fun r =>
        if r.hasKey ti.Intent.Client.Name ti.Intent.Client.Namespace (clientKindOf ti) ti.Intent.DNSName
        then { r with lastSeen := formatDate ti.Timestamp } else r) ∧
      s1.localIntentCacheMap = c1 := by
    by_cases hy : s.localIntentCacheMap.has yesterday (checkIfExistsCacheKey ti.Intent.Client.Name
        ti.Intent.Client.Namespace (clientKindOf ti) ti.Intent.DNSName) = true
    · exact ⟨_, storeIntent_yesterday s ti today yesterday c1 hc1 ht hy, rfl, rfl⟩
    · exact ⟨_, storeIntent_found s ti today yesterday c1 hc1 ht (by simpa using hy) hr, rfl, rfl⟩
  obtain ⟨s1, hs, hrows, hcache⟩ := hstore
  refine ⟨s1, hs, hrows, ?_, ?_, ?_, ?_⟩
  · rw [hrows, List.length_map]
  · intro r hmem hk
    rw [hrows, List.mem_map] at hmem
    obtain ⟨r0, _, hr0⟩ := hmem
    by_cases h0 : r0.hasKey ti.Intent.Client.Name ti.Intent.Client.Namespace (clientKindOf ti)
        ti.Intent.DNSName = true
    · rw [if_pos h0] at hr0
      rw [← hr0]
    · rw [if_neg h0] at hr0
      rw [hr0] at h0
      exact absurd hk h0
  · rw [hcache]; exact hin
  · intro ignore hasNew payloads
    unfold processIntent
    by_cases h1 : hasExternalIP ti.Intent.IPs = true
    · by_cases h2 : ti.Intent.Client.Name ∈ ignore
      · exact ⟨{ store := s, hasNewIntent := hasNew, payloads := payloads },
          by simp [h1, h2], rfl, rfl⟩
      · exact ⟨{ store := s1, hasNewIntent := hasNew, payloads := payloads },
          by simp [h1, h2, hs], rfl, rfl⟩
    · exact ⟨{ store := s, hasNewIntent := hasNew, payloads := payloads },
        by simp [h1], rfl, rfl⟩

/-- C9 at the spec's scenario: a row last seen on day 97, submitted again on day 100. -/
theorem storeIntent_known_row_witness :
    ∃ s1, storeIntent allSucceed oldRowStore (payIntent ["54.1.2.3"]) 100 99 = some (s1, true) ∧
      s1.Db.rows = [Row.mk "pay-svc" "default" "Deployment" "api.stripe.com" 100] := by
  obtain ⟨s1, h1, h2, _⟩ := storeIntent_known_row oldRowStore (payIntent ["54.1.2.3"]) 100 99
    (by decide) (by decide) (by decide)
  exact ⟨s1, h1, h2.trans (by decide)⟩

/-- C10, the code at a failing input: in `dayAfterStore` the table holds no row for
`barIntent` and the `today` bucket does not hold its key, so the relationship is new; yet
`storeIntent` answers "already known" and the table is left without a row for it, and the
callback dispatches nothing for it: the three-field key that `checkIfExists` builds for
`barIntent` is the text of the key that another identity left in the `yesterday` bucket. -/
theorem storeIntent_no_row_yet_known :
    dayAfterStore.localIntentCacheMap.hasBucket 100 = true ∧
    dayAfterStore.localIntentCacheMap.has 100 (cacheKeyOf barIntent) = false ∧
    dayAfterStore.Db.rows.any (fun r => r.hasKey barIntent.Intent.Client.Name
      barIntent.Intent.Client.Namespace (clientKindOf barIntent) barIntent.Intent.DNSName) = false ∧
    (storeIntent allSucceed dayAfterStore barIntent 100 99).map (fun r => (r.2, r.1.Db.rows)) =
      some (true, [Row.mk "pay-svc" "default" "Deployment" "api.stripe.com" 99]) ∧
    (LogExternalTrafficIntentsCallback allSucceed dayAfterStore (100 * 86400 + 3600) [barIntent]).map
        (fun r => (r.1.Db.rows, r.2)) =
      some ([Row.mk "pay-svc" "default" "Deployment" "api.stripe.com" 99], []) := by
  decide

/-- Lemma on the insert path of `storeIntent`: when every statement succeeds, the `today`
bucket exists and does not hold the key of the intent, the lookup of `checkIfExists` in the
`yesterday` bucket misses, and the table holds no row with the four identity fields of the
intent, then
`storeIntent` returns "newly discovered" (`found = false`); the table is the old one followed
by one new row with those four fields and `lastSeen` the observation date of the intent; the
key is then in the `today` bucket; and for an intent with an external IP and a client that is
not ignored the loop body of `LogExternalTrafficIntentsCallback` sets the novelty flag and
appends exactly the payload of the intent. -/
theorem storeIntent_new_row (s : MySQLIntentStore) (ti : TimestampedExternalTrafficIntent)
    (today yesterday : Int)
    (hb : s.localIntentCacheMap.hasBucket today = true)
    (ht : s.localIntentCacheMap.has today (cacheKeyOf ti) = false)
    (hy : s.localIntentCacheMap.has yesterday (checkIfExistsCacheKey ti.Intent.Client.Name
      ti.Intent.Client.Namespace (clientKindOf ti) ti.Intent.DNSName) = false)
    (hr : s.Db.rows.any (fun r => r.hasKey ti.Intent.Client.Name ti.Intent.Client.Namespace
      (clientKindOf ti) ti.Intent.DNSName) = false) :
    ∃ s1, storeIntent allSucceed s ti today yesterday = some (s1, false) ∧
      s1.Db.rows = s.Db.rows ++ [Row.mk ti.Intent.Client.Name ti.Intent.Client.Namespace
        (clientKindOf ti) ti.Intent.DNSName (formatDate ti.Timestamp)] ∧
      s1.Db.countKey ti.Intent.Client.Name ti.Intent.Client.Namespace (clientKindOf ti)
        ti.Intent.DNSName = 1 ∧
      s1.localIntentCacheMap.has today (cacheKeyOf ti) = true ∧
      (∀ (ignore : List String) (hasNew : Bool) (payloads : List ExternalTrafficPayload),
        hasExternalIP ti.Intent.IPs = true → ti.Intent.Client.Name ∉ ignore →
        processIntent allSucceed ignore today yesterday
            { store := s, hasNewIntent := hasNew, payloads := payloads } ti =
          some { store := s1, hasNewIntent := true, payloads := payloads ++ [payloadOf ti] }) := by
  obtain ⟨c1, hc1⟩ := add_isSome s.localIntentCacheMap today (cacheKeyOf ti) hb
  have hin := has_of_add _ _ _ _ hc1
  have hs := storeIntent_new s ti today yesterday c1 hc1 ht hy hr
  refine ⟨_, hs, rfl, ?_, hin, ?_⟩
  · simp only [DB.countKey]
    rw [List.countP_append, countP_zero_of_any_false _ _ _ _ _ hr]
    simp [hasKey_self]
  · intro ignore hasNew payloads h1 h2
    simp [processIntent, h1, h2, hs]

/-- The insert path at the spec's scenario: `pay-svc` towards `api.stripe.com` submitted for
the first time on day 100. -/
theorem storeIntent_new_row_witness :
    ∃ s1, storeIntent allSucceed { emptyStore with localIntentCacheMap := [(100, [])] }
        (payIntent ["54.1.2.3"]) 100 99 = some (s1, false) ∧
      s1.Db.rows = [Row.mk "pay-svc" "default" "Deployment" "api.stripe.com" 100] := by
  obtain ⟨s1, h1, h2, _⟩ := storeIntent_new_row { emptyStore with localIntentCacheMap := [(100, [])] }
    (payIntent ["54.1.2.3"]) 100 99 (by decide) (by decide) (by decide) (by decide)
  exact ⟨s1, h1, h2.trans (by decide)⟩

/-! ## C11: the `yesterday` bucket -/

/-- C11, the code at a failing input: `intentOn` is stored by the callback on day 99, so on
day 100 its key is in the `yesterday` bucket and not in the `today` bucket; submitted again on
day 100, `storeIntent` still sends the existence query (the third statement of the log) before
the update, because `checkIfExists` looks up the three-field key; the intent is treated as
already known (no dispatch). -/
theorem yesterday_key_still_queries :
    (runCallbacks allSucceed emptyStore [(99 * 86400 + 43200, [intentOn 99])]).map
        (fun s => (s.localIntentCacheMap, s.localIntentCacheMap.has 99 (cacheKeyOf (intentOn 100)))) =
      some ([(99, ["web|prod|Deployment|example.org"])], true) ∧
    ((runCallbacks allSucceed emptyStore [(99 * 86400 + 43200, [intentOn 99])]).bind
        (fun s => LogExternalTrafficIntentsCallback allSucceed s (100 * 86400 + 43200) [intentOn 100])).map
        (fun r => (r.1.Db.log, r.2)) =
      some ([Stmt.selectExists "web" "prod" "Deployment" "example.org",
             Stmt.insert "web" "prod" "Deployment" "example.org" 99,
             Stmt.selectExists "web" "prod" "Deployment" "example.org",
             Stmt.update 100 "web" "prod" "Deployment" "example.org"], []) := by
  decide

/-! ## C13: listing -/

/-- C13: with a succeeding backend `GetExternalIntents` returns records; it first runs
`CleanupExpiredIntents` and then sends the `SELECT`, which leaves the table as the cleanup
left it; the records are a permutation of the records of the rows that survive the cleanup
(each row exactly once), and they are ordered by `LastSeen` descending: every record is seen
no earlier than every later one, in particular than its successor. -/
theorem listAll_sorted_perm (s : MySQLIntentStore) (now : Int) :
    ∃ recs, (GetExternalIntents allSucceed s now).2 = some recs ∧
      recs.Perm ((CleanupExpiredIntents allSucceed s now).1.Db.rows.map recordOf) ∧
      recs.Pairwise (fun a b => b.LastSeen ≤ a.LastSeen) ∧
      (∀ (i : Nat) (h : i + 1 < recs.length),
        (recs.get ⟨i + 1, h⟩).LastSeen ≤ (recs.get ⟨i, by omega⟩).LastSeen) ∧
      (GetExternalIntents allSucceed s now).1.Db.rows =
        (CleanupExpiredIntents allSucceed s now).1.Db.rows ∧
      (GetExternalIntents allSucceed s now).1.Db.log =
        (CleanupExpiredIntents allSucceed s now).1.Db.log ++ [Stmt.selectAll] := by
  have hsorted := @List.sorted_insertionSort Row seenNotBefore _
    ⟨fun a b => le_total b.lastSeen a.lastSeen⟩ ⟨fun a b c hab hbc => le_trans hbc hab⟩
    (CleanupExpiredIntents allSucceed s now).1.Db.rows
  have hperm := List.perm_insertionSort seenNotBefore (CleanupExpiredIntents allSucceed s now).1.Db.rows
  have hpw : (((CleanupExpiredIntents allSucceed s now).1.Db.rows.insertionSort seenNotBefore).map
      recordOf).Pairwise (fun a b => b.LastSeen ≤ a.LastSeen) := by
    rw [List.pairwise_map]
    refine List.Pairwise.imp ?_ hsorted
    intro a b hab
    simp only [recordOf, dateToTime]
    unfold seenNotBefore at hab
    omega
  refine ⟨((CleanupExpiredIntents allSucceed s now).1.Db.rows.insertionSort seenNotBefore).map recordOf,
    ?_, hperm.map recordOf, hpw, ?_, ?_, ?_⟩
  · simp [GetExternalIntents, DB.querySelectAll, allSucceed]
  · intro i h
    exact (List.pairwise_iff_get.mp hpw) ⟨i, by omega⟩ ⟨i + 1, h⟩ (by simp)
  · simp [GetExternalIntents, DB.querySelectAll, allSucceed]
  · simp [GetExternalIntents, DB.querySelectAll, allSucceed]

/-- C13 at a concrete input: four rows, one of them expired, listed at day 100. -/
theorem listAll_sorted_perm_witness :
    ∃ recs, (GetExternalIntents allSucceed
        { emptyStore with Db := { rows := [Row.mk "a" "b" "c" "d" 98, Row.mk "a" "b" "c" "e" 100,
            Row.mk "a" "b" "c" "f" 9, Row.mk "a" "b" "c" "g" 99], log := [] } }
        (100 * 86400 + 5)).2 = some recs ∧
      recs = [ExternalIntentRecord.mk "a" "b" "c" "e" (100 * 86400),
              ExternalIntentRecord.mk "a" "b" "c" "g" (99 * 86400),
              ExternalIntentRecord.mk "a" "b" "c" "d" (98 * 86400)] := by
  obtain ⟨recs, h1, _⟩ := listAll_sorted_perm
    { emptyStore with Db := { rows := [Row.mk "a" "b" "c" "d" 98, Row.mk "a" "b" "c" "e" 100,
        Row.mk "a" "b" "c" "f" 9, Row.mk "a" "b" "c" "g" 99], log := [] } } (100 * 86400 + 5)
  refine ⟨recs, h1, ?_⟩
  have h0 : (GetExternalIntents allSucceed
      { emptyStore with Db := { rows := [Row.mk "a" "b" "c" "d" 98, Row.mk "a" "b" "c" "e" 100,
          Row.mk "a" "b" "c" "f" 9, Row.mk "a" "b" "c" "g" 99], log := [] } }
      (100 * 86400 + 5)).2 =
      some [ExternalIntentRecord.mk "a" "b" "c" "e" (100 * 86400),
            ExternalIntentRecord.mk "a" "b" "c" "g" (99 * 86400),
            ExternalIntentRecord.mk "a" "b" "c" "d" (98 * 86400)] := by decide
  rw [h1] at h0
  exact Option.some.inj h0

/-! ## C14: the cache at process start -/

theorem selectBetween_empty (rows : List Row) (now : Int) :
    rows.filter (fun r => decide (formatDate now ≤ r.lastSeen) &&
      decide (r.lastSeen ≤ formatDate (addDays now (-1)))) = [] := by
  rw [List.filter_eq_nil_iff]
  intro r _
  simp only [formatDate, addDays, Bool.and_eq_true, decide_eq_true_eq, not_and, not_le]
  intro h
  omega

/-- C14: whenever `NewMySQLIntentStore` returns a store, whatever the table holds and
whichever statements fail, the cache of the store has no date bucket (and so no key): the
query of `LoadCacheFromDb` asks for `last_seen >= today AND last_seen <= yesterday`, which no
row satisfies.  With a reachable and succeeding backend a store is returned, over the
unchanged table. -/
theorem new_store_cache_empty (config : Config) (db : DB) (now : Int) :
    (∀ (reachable : Bool) (fail : Nat → Bool) (s : MySQLIntentStore),
      NewMySQLIntentStore reachable fail config db now = some s →
        s.localIntentCacheMap = [] ∧ s.localIntentCacheMap.len = 0) ∧
    (∃ s, NewMySQLIntentStore true allSucceed config db now = some s ∧
      s.localIntentCacheMap = [] ∧ s.Db.rows = db.rows ∧
      s.Db.log = db.log ++
        [Stmt.createTable, Stmt.selectBetween (formatDate now) (formatDate (addDays now (-1)))]) := by
  constructor
  · intro reachable fail s h
    unfold NewMySQLIntentStore at h
    cases reachable
    · simp at h
    · simp only [Bool.not_true, Bool.false_eq_true, if_false, DB.execCreateTable] at h
      by_cases hf : fail db.log.length = true
      · simp [hf] at h
      · have hf0 : fail db.log.length = false := by simpa using hf
        simp only [hf0, Option.some.injEq] at h
        subst h
        unfold LoadCacheFromDb DB.querySelectBetween
        split_ifs <;> simp [selectBetween_empty, Cache.len]
  · have hnew : NewMySQLIntentStore true allSucceed config db now =
        some (LoadCacheFromDb allSucceed
          { Db := { rows := db.rows, log := db.log ++ [Stmt.createTable] }, config := config,
            localIntentCacheMap := [] } now).1 := by
      simp [NewMySQLIntentStore, DB.execCreateTable, allSucceed]
    refine ⟨_, hnew, ?_, ?_, ?_⟩
    · simp [LoadCacheFromDb, DB.querySelectBetween, allSucceed, selectBetween_empty]
    · simp [LoadCacheFromDb, DB.querySelectBetween, allSucceed]
    · simp [LoadCacheFromDb, DB.querySelectBetween, allSucceed]

/-- C14 at a concrete input: a table with rows last seen today and yesterday still gives an
empty cache. -/
theorem new_store_cache_empty_witness :
    (NewMySQLIntentStore true allSucceed sampleConfig
      { rows := [Row.mk "a" "b" "c" "d" 100, Row.mk "a" "b" "c" "e" 99], log := [] }
      (100 * 86400 + 5)).map (fun s => s.localIntentCacheMap) = some [] := by
  obtain ⟨s, h1, h2, _⟩ := (new_store_cache_empty sampleConfig
    { rows := [Row.mk "a" "b" "c" "d" 100, Row.mk "a" "b" "c" "e" 99], log := [] } (100 * 86400 + 5)).2
  rw [h1]
  simp [h2]

/-! ## C12: failing statements -/

theorem storeIntent_closed_form (fail : Nat → Bool) (s : MySQLIntentStore)
    (ti : TimestampedExternalTrafficIntent) (today yesterday : Int) (c1 : Cache)
    (hc1 : s.localIntentCacheMap.add today (cacheKeyOf ti) = some c1)
    (ht : s.localIntentCacheMap.has today (cacheKeyOf ti) = false) :
    storeIntent fail s ti today yesterday =
      if s.localIntentCacheMap.has yesterday (checkIfExistsCacheKey ti.Intent.Client.Name
          ti.Intent.Client.Namespace (clientKindOf ti) ti.Intent.DNSName) = true then
        if fail s.Db.log.length = true then
          some ({ Db := { rows := s.Db.rows,
                          log := s.Db.log ++ [Stmt.update (formatDate ti.Timestamp) ti.Intent.Client.Name
                            ti.Intent.Client.Namespace (clientKindOf ti) ti.Intent.DNSName] },
                  config := s.config, localIntentCacheMap := s.localIntentCacheMap }, true)
        else
          some ({ Db := { rows := s.Db.rows.map (fun r =>
                            if r.hasKey ti.Intent.Client.Name ti.Intent.Client.Namespace (clientKindOf ti)
                              ti.Intent.DNSName then { r with lastSeen := formatDate ti.Timestamp } else r),
                          log := s.Db.log ++ [Stmt.update (formatDate ti.Timestamp) ti.Intent.Client.Name
                            ti.Intent.Client.Namespace (clientKindOf ti) ti.Intent.DNSName] },
                  config := s.config, localIntentCacheMap := c1 }, true)
      else if fail s.Db.log.length = false ∧ s.Db.rows.any (fun r => r.hasKey ti.Intent.Client.Name
          ti.Intent.Client.Namespace (clientKindOf ti) ti.Intent.DNSName) = true then
        if fail (s.Db.log.length + 1) = true then
          some ({ Db := { rows := s.Db.rows,
                          log := s.Db.log ++ [Stmt.selectExists ti.Intent.Client.Name
                            ti.Intent.Client.Namespace (clientKindOf ti) ti.Intent.DNSName,
                            Stmt.update (formatDate ti.Timestamp) ti.Intent.Client.Name
                            ti.Intent.Client.Namespace (clientKindOf ti) ti.Intent.DNSName] },
                  config := s.config, localIntentCacheMap := s.localIntentCacheMap }, true)
        else
          some ({ Db := { rows := s.Db.rows.map (fun r =>
                            if r.hasKey ti.Intent.Client.Name ti.Intent.Client.Namespace (clientKindOf ti)
                              ti.Intent.DNSName then { r with lastSeen := formatDate ti.Timestamp } else r),
                          log := s.Db.log ++ [Stmt.selectExists ti.Intent.Client.Name
                            ti.Intent.Client.Namespace (clientKindOf ti) ti.Intent.DNSName,
                            Stmt.update (formatDate ti.Timestamp) ti.Intent.Client.Name
                            ti.Intent.Client.Namespace (clientKindOf ti) ti.Intent.DNSName] },
                  config := s.config, localIntentCacheMap := c1 }, true)
      else
        if fail (s.Db.log.length + 1) = true ∨ s.Db.rows.any (fun r => r.hasKey ti.Intent.Client.Name
            ti.Intent.Client.Namespace (clientKindOf ti) ti.Intent.DNSName) = true then
          some ({ Db := { rows := s.Db.rows,
                          log := s.Db.log ++ [Stmt.selectExists ti.Intent.Client.Name
                            ti.Intent.Client.Namespace (clientKindOf ti) ti.Intent.DNSName,
                            Stmt.insert ti.Intent.Client.Name ti.Intent.Client.Namespace (clientKindOf ti)
                            ti.Intent.DNSName (formatDate ti.Timestamp)] },
                  config := s.config, localIntentCacheMap := s.localIntentCacheMap }, false)
        else
          some ({ Db := { rows := s.Db.rows ++ [Row.mk ti.Intent.Client.Name ti.Intent.Client.Namespace
                            (clientKindOf ti) ti.Intent.DNSName (formatDate ti.Timestamp)],
                          log := s.Db.log ++ [Stmt.selectExists ti.Intent.Client.Name
                            ti.Intent.Client.Namespace (clientKindOf ti) ti.Intent.DNSName,
                            Stmt.insert ti.Intent.Client.Name ti.Intent.Client.Namespace (clientKindOf ti)
                            ti.Intent.DNSName (formatDate ti.Timestamp)] },
                  config := s.config, localIntentCacheMap := c1 }, false) := by
  by_cases hy : s.localIntentCacheMap.has yesterday (checkIfExistsCacheKey ti.Intent.Client.Name
      ti.Intent.Client.Namespace (clientKindOf ti) ti.Intent.DNSName) = true
  · by_cases hf : fail s.Db.log.length = true
    · simp [storeIntent, ht, checkIfExists, hy, DB.execUpdate, hf]
    · simp [storeIntent, ht, checkIfExists, hy, DB.execUpdate, hf, hc1]
  · have hany : (s.Db.rows.any (fun r => r.hasKey ti.Intent.Client.Name ti.Intent.Client.Namespace
        (clientKindOf ti) ti.Intent.DNSName) = true) ↔
        ∃ x ∈ s.Db.rows, x.hasKey ti.Intent.Client.Name ti.Intent.Client.Namespace
          (clientKindOf ti) ti.Intent.DNSName = true := by
      simp
    by_cases hra : s.Db.rows.any (fun r => r.hasKey ti.Intent.Client.Name ti.Intent.Client.Namespace
        (clientKindOf ti) ti.Intent.DNSName) = true
    · have hr := hany.mp hra
      by_cases hf : fail s.Db.log.length = true
      · by_cases hf1 : fail (s.Db.log.length + 1) = true
        · simp [storeIntent, ht, checkIfExists, hy, DB.queryExists, DB.execInsert, hf, hf1]
        · simp [storeIntent, ht, checkIfExists, hy, DB.queryExists, DB.execInsert, hf, hf1, hr]
      · by_cases hf1 : fail (s.Db.log.length + 1) = true
        · simp only [storeIntent, ht, checkIfExists, hy, DB.queryExists, DB.execUpdate, hf, hra]
          simp [hf, hf1, hr]
        · simp only [storeIntent, ht, checkIfExists, hy, DB.queryExists, DB.execUpdate, hf, hra]
          simp [hf, hf1, hr, hc1]
    · have hr : ¬ ∃ x ∈ s.Db.rows, x.hasKey ti.Intent.Client.Name ti.Intent.Client.Namespace
          (clientKindOf ti) ti.Intent.DNSName = true := fun h => hra (hany.mpr h)
      have hra0 : s.Db.rows.any (fun r => r.hasKey ti.Intent.Client.Name ti.Intent.Client.Namespace
          (clientKindOf ti) ti.Intent.DNSName) = false := by simpa using hra
      by_cases hf : fail s.Db.log.length = true
      · by_cases hf1 : fail (s.Db.log.length + 1) = true
        · simp [storeIntent, ht, checkIfExists, hy, DB.queryExists, DB.execInsert, hf, hf1]
        · simp [storeIntent, ht, checkIfExists, hy, DB.queryExists, DB.execInsert, hf, hf1, hr, hc1]
      · by_cases hf1 : fail (s.Db.log.length + 1) = true
        · simp only [storeIntent, ht, checkIfExists, hy, DB.queryExists, DB.execInsert, hf, hra0]
          simp [hf, hf1, hr]
        · simp only [storeIntent, ht, checkIfExists, hy, DB.queryExists, DB.execInsert, hf, hra0]
          simp [hf, hf1, hr, hc1]

theorem processIntents_total (fail : Nat → Bool) (ignore : List String) (today yesterday : Int)
    (intents : List TimestampedExternalTrafficIntent) (st : BatchState)
    (hb : st.store.localIntentCacheMap.hasBucket today = true) :
    ∃ st1, processIntents fail ignore today yesterday st intents = some st1 := by
  obtain ⟨st1, h, _⟩ := processIntents_newly fail ignore today yesterday intents st hb
  exact ⟨st1, h⟩

/-- C12: for a store with a `today` bucket that lacks the key of the intent, and a backend
whose statements may fail in any pattern: `storeIntent` returns.  When the existence query is
sent and fails, `storeIntent` goes on to the `INSERT` and answers "not already known", as for
"not found".  When the last statement sent (the `INSERT` or `UPDATE`) fails, cache and table
are as they were before the call, so the key is not added to the `today` bucket; the same
holds when the `INSERT` after a failed query is refused by the unique key.  In every case
the loop of `LogExternalTrafficIntentsCallback` goes on: the batch `ti :: rest` is processed
as `rest` from the state after `ti`, and that returns. -/
theorem storeIntent_failure_semantics (fail : Nat → Bool) (s : MySQLIntentStore)
    (ti : TimestampedExternalTrafficIntent) (today yesterday : Int)
    (hb : s.localIntentCacheMap.hasBucket today = true)
    (ht : s.localIntentCacheMap.has today (cacheKeyOf ti) = false) :
    (∃ s1 found, storeIntent fail s ti today yesterday = some (s1, found)) ∧
    (s.localIntentCacheMap.has yesterday (checkIfExistsCacheKey ti.Intent.Client.Name
        ti.Intent.Client.Namespace (clientKindOf ti) ti.Intent.DNSName) = false →
      fail s.Db.log.length = true →
      ∃ s1, storeIntent fail s ti today yesterday = some (s1, false) ∧
        s1.Db.log = s.Db.log ++ [Stmt.selectExists ti.Intent.Client.Name ti.Intent.Client.Namespace
            (clientKindOf ti) ti.Intent.DNSName,
          Stmt.insert ti.Intent.Client.Name ti.Intent.Client.Namespace (clientKindOf ti)
            ti.Intent.DNSName (formatDate ti.Timestamp)]) ∧
    (∀ s1 found, storeIntent fail s ti today yesterday = some (s1, found) →
      fail (s1.Db.log.length - 1) = true →
      s1.localIntentCacheMap = s.localIntentCacheMap ∧ s1.Db.rows = s.Db.rows) ∧
    (s.localIntentCacheMap.has yesterday (checkIfExistsCacheKey ti.Intent.Client.Name
        ti.Intent.Client.Namespace (clientKindOf ti) ti.Intent.DNSName) = false →
      fail s.Db.log.length = true →
      s.Db.rows.any (fun r => r.hasKey ti.Intent.Client.Name ti.Intent.Client.Namespace
        (clientKindOf ti) ti.Intent.DNSName) = true →
      ∃ s1, storeIntent fail s ti today yesterday = some (s1, false) ∧
        s1.localIntentCacheMap = s.localIntentCacheMap ∧ s1.Db.rows = s.Db.rows) ∧
    (∀ (ignore : List String) (hasNew : Bool) (payloads : List ExternalTrafficPayload)
        (rest : List TimestampedExternalTrafficIntent),
      ∃ st1, processIntent fail ignore today yesterday
          { store := s, hasNewIntent := hasNew, payloads := payloads } ti = some st1 ∧
        processIntents fail ignore today yesterday
          { store := s, hasNewIntent := hasNew, payloads := payloads } (ti :: rest) =
          processIntents fail ignore today yesterday st1 rest ∧
        ∃ st2, processIntents fail ignore today yesterday st1 rest = some st2) := by
  obtain ⟨c1, hc1⟩ := add_isSome s.localIntentCacheMap today (cacheKeyOf ti) hb
  have hform := storeIntent_closed_form fail s ti today yesterday c1 hc1 ht
  refine ⟨?_, ?_, ?_, ?_, ?_⟩
  · obtain ⟨s1, found, h, _⟩ := storeIntent_total fail s ti today yesterday hb
    exact ⟨s1, found, h⟩
  · intro hy hf
    rw [hform]
    simp only [hy, hf, Bool.false_eq_true, if_false, Bool.true_eq_false, false_and]
    split_ifs
    · exact ⟨_, rfl, rfl⟩
    · exact ⟨_, rfl, rfl⟩
  · intro s1 found h hlast
    rw [hform] at h
    split_ifs at h with h1 h2 h3 h4 h5
    all_goals
      simp only [Option.some.injEq, Prod.mk.injEq] at h
      obtain ⟨rfl, _⟩ := h
      simp only [List.length_append, List.length_cons, List.length_nil] at hlast
    · exact ⟨rfl, rfl⟩
    · exact absurd hlast h2
    · exact ⟨rfl, rfl⟩
    · exact absurd hlast h4
    · exact ⟨rfl, rfl⟩
    · exact absurd hlast (fun hl => h5 (Or.inl hl))
  · intro hy hf hr
    rw [hform]
    simp only [hy, hf, hr, Bool.false_eq_true, if_false, Bool.true_eq_false, false_and, or_true,
      if_true]
    exact ⟨_, rfl, rfl, rfl⟩
  · intro ignore hasNew payloads rest
    obtain ⟨st1, h1, hb1, _⟩ := processIntent_total fail ignore today yesterday
      { store := s, hasNewIntent := hasNew, payloads := payloads } ti hb
    refine ⟨st1, h1, ?_, processIntents_total fail ignore today yesterday rest st1 hb1⟩
    simp only [processIntents, h1]

/-- C12 at a concrete input: on a backend where every statement fails, the first submission
of `pay-svc` towards `api.stripe.com` sends the query and the insert, answers "not already
known" and leaves the `today` bucket empty. -/
theorem storeIntent_failure_semantics_witness :
    ∃ s1, storeIntent allFail { emptyStore with localIntentCacheMap := [(100, [])] }
        (payIntent ["54.1.2.3"]) 100 99 = some (s1, false) ∧
      s1.localIntentCacheMap = [(100, [])] ∧ s1.Db.rows = [] := by
  obtain ⟨s1, found, h⟩ := (storeIntent_failure_semantics allFail
    { emptyStore with localIntentCacheMap := [(100, [])] } (payIntent ["54.1.2.3"]) 100 99
    (by decide) (by decide)).1
  have h0 : (storeIntent allFail { emptyStore with localIntentCacheMap := [(100, [])] }
      (payIntent ["54.1.2.3"]) 100 99).map (fun r => (r.2, r.1.localIntentCacheMap, r.1.Db.rows)) =
      some (false, [(100, [])], []) := by decide
  rw [h] at h0
  simp only [Option.map_some', Option.some.injEq, Prod.mk.injEq] at h0
  obtain ⟨rfl, h2, h3⟩ := h0
  exact ⟨s1, h, h2, h3⟩

/-! ## C15: cached keys and rows -/

/-- C15, the code at a failing input: starting from the empty cache and an empty table, with
every statement succeeding, `intentOn` is processed on day 99 and `barIntentOn` on day 100.
Afterwards the `today` bucket holds the key of `barIntentOn`, while the only row of the table
is the one of `intentOn`: `checkIfExists` found its three-field key text in the `yesterday`
bucket, and the `UPDATE` that followed matched no row. -/
theorem cached_key_without_row :
    (runCallbacks allSucceed emptyStore
        [(99 * 86400 + 43200, [intentOn 99]), (100 * 86400 + 43200, [barIntentOn 100])]).map
      (fun s => (s.localIntentCacheMap.bucket 100, s.Db.rows, cacheBacked s 100)) =
      some (some ["web|prod|Job|Deployment|example.org"],
        [Row.mk "web" "prod" "Deployment" "example.org" 99], false) := by
  decide

/-! ## C16: the key encoding -/

theorem append_bar_inj (l1 l2 r1 r2 : List Char) (h1 : '|' ∉ l1) (h2 : '|' ∉ l2)
    (h : l1 ++ '|' :: r1 = l2 ++ '|' :: r2) : l1 = l2 ∧ r1 = r2 := by
  induction l1 generalizing l2 with
  | nil =>
    cases l2 with
    | nil => simpa using h
    | cons c cs =>
      simp only [List.nil_append, List.cons_append, List.cons.injEq] at h
      exact absurd (h.1 ▸ List.mem_cons_self c cs) h2
  | cons a as ih =>
    cases l2 with
    | nil =>
      simp only [List.nil_append, List.cons_append, List.cons.injEq] at h
      exact absurd (h.1 ▸ List.mem_cons_self a as) h1
    | cons c cs =>
      simp only [List.cons_append, List.cons.injEq] at h
      obtain ⟨hac, hrest⟩ := h
      have := ih cs (fun hm => h1 (List.mem_cons_of_mem _ hm))
        (fun hm => h2 (List.mem_cons_of_mem _ hm)) hrest
      exact ⟨by rw [hac, this.1], this.2⟩

theorem storeIntentCacheKey_data (n s k d : String) :
    (storeIntentCacheKey n s k d).data = n.data ++ '|' :: (s.data ++ '|' :: (k.data ++ '|' :: d.data)) := by
  have hbar : ("|" : String).data = ['|'] := rfl
  simp [storeIntentCacheKey, String.data_append, hbar]

/-- C16, as stated, fails: two different identities, one with the separator in the client
name and one with it in the namespace, have the same cache key; processed in one batch, the
second is taken for already known on the cache hit: it gets no row and no payload. -/
theorem cache_key_collision :
    storeIntentCacheKey "pay|svc" "default" "Deployment" "x.com" =
      storeIntentCacheKey "pay" "svc|default" "Deployment" "x.com" ∧
    ("pay|svc", "default", "Deployment", "x.com") ≠ ("pay", "svc|default", "Deployment", "x.com") ∧
    (LogExternalTrafficIntentsCallback allSucceed emptyStore (100 * 86400 + 43200)
        [intentOf "pay|svc" "default" "Deployment" "x.com",
         intentOf "pay" "svc|default" "Deployment" "x.com"]).map (fun r => (r.1.Db.rows, r.2)) =
      some ([Row.mk "pay|svc" "default" "Deployment" "x.com" 100],
        [[ExternalTrafficPayload.mk "pay|svc" "default" "Deployment" "x.com"]]) := by
  decide

/-- C16, amended: for identities whose client name, namespace and kind do not contain the
separator `|` (the DNS name may be any string), the cache key of `storeIntent` is injective:
equal keys come from equal (clientName, clientNamespace, clientKind, dnsName). -/
theorem cache_key_injective (n1 s1 k1 d1 n2 s2 k2 d2 : String)
    (hn1 : '|' ∉ n1.toList) (hs1 : '|' ∉ s1.toList) (hk1 : '|' ∉ k1.toList)
    (hn2 : '|' ∉ n2.toList) (hs2 : '|' ∉ s2.toList) (hk2 : '|' ∉ k2.toList)
    (h : storeIntentCacheKey n1 s1 k1 d1 = storeIntentCacheKey n2 s2 k2 d2) :
    n1 = n2 ∧ s1 = s2 ∧ k1 = k2 ∧ d1 = d2 := by
  have hd := congrArg String.data h
  rw [storeIntentCacheKey_data, storeIntentCacheKey_data] at hd
  obtain ⟨e1, r1⟩ := append_bar_inj _ _ _ _ hn1 hn2 hd
  obtain ⟨e2, r2⟩ := append_bar_inj _ _ _ _ hs1 hs2 r1
  obtain ⟨e3, r3⟩ := append_bar_inj _ _ _ _ hk1 hk2 r2
  exact ⟨String.ext e1, String.ext e2, String.ext e3, String.ext r3⟩

/-- C16, amended, at a concrete input: a DNS name with the separator beside bar-free client
fields. -/
theorem cache_key_injective_witness :
    storeIntentCacheKey "web" "prod" "Job" "Deployment|example.org" =
        storeIntentCacheKey "web" "prod" "Job" "Deployment|example.org" ∧
      ("web" : String) = "web" ∧ ("prod" : String) = "prod" ∧ ("Job" : String) = "Job" ∧
      ("Deployment|example.org" : String) = "Deployment|example.org" :=
  ⟨rfl, cache_key_injective "web" "prod" "Job" "Deployment|example.org" "web" "prod" "Job"
    "Deployment|example.org" (by decide) (by decide) (by decide) (by decide) (by decide) (by decide) rfl⟩

end mysqlstore
